import Mathlib

/-!
Verification of the resume ingestion and structured-extraction pipeline
(rule-based extractor, tenure computer, confidence scorer, hybrid
orchestrator, and persistence row builders) against its specification.

Strings are modelled as lists of characters (`Str`); the JavaScript regular
expressions of the source are embedded as explicit scanning functions with
the same matching semantics (leftmost match, alternation order, greedy
quantifiers with the backtracking the concrete patterns require).
-/

set_option maxRecDepth 10000

abbrev Str := List Char

def str (s : String) : Str := s.data

/-- Case-insensitive character comparison, as JavaScript `/i` matching on
ASCII letters. -/
def ciEqChar (a b : Char) : Bool := a.toLower == b.toLower

/-- JavaScript `\s` / `trim()` whitespace (the characters that occur in
practice; exotic Unicode space classes are not produced by the decoders). -/
def jsSpace (c : Char) : Bool :=
  c == ' ' || c == '\t' || c == '\n' || c == '\r' ||
  c == '\x0b' || c == '\x0c' || c == '\u00A0'

/-- JavaScript `\w`: `[A-Za-z0-9_]`. -/
def wordChar (c : Char) : Bool :=
  (('a' ≤ c && c ≤ 'z') || ('A' ≤ c && c ≤ 'Z') || c.isDigit || c == '_')

/-- JavaScript `.` (without the `s` flag): any character except line
terminators. -/
def dotChar (c : Char) : Bool := !(c == '\n' || c == '\r' || c == '\u2028' || c == '\u2029')

/-- `String.prototype.trim()`. -/
def trimStr (s : Str) : Str :=
  ((s.dropWhile jsSpace).reverse.dropWhile jsSpace).reverse

/-- Match a literal pattern case-insensitively at the start of the input,
returning the rest of the input after the pattern. -/
def stripCI : Str → Str → Option Str
  | [], s => some s
  | _ :: _, [] => none
  | p :: ps, c :: cs => if ciEqChar p c then stripCI ps cs else none

/-- Case-insensitive substring test (`String.prototype.includes` after
`toLowerCase`, or an unanchored regex alternative of a literal word). -/
def containsCI (pat : Str) : Str → Bool
  | [] => (stripCI pat []).isSome
  | c :: cs => (stripCI pat (c :: cs)).isSome || containsCI pat cs

/-- Unanchored test of an alternation of literal words (no `\b` anchors),
e.g. `/(Manager|Director|...)/i`. -/
def containsAnyCI (pats : List Str) (s : Str) : Bool :=
  pats.any (fun p => containsCI p s)

def lowerStr (s : Str) : Str := s.map Char.toLower

/-- The anchor `^\d{4}-\d{2}-\d{2}$` of `toDateString`. -/
def isoShape : Str → Bool
  | [a, b, c, d, h1, e, f, h2, g, i] =>
    a.isDigit && b.isDigit && c.isDigit && d.isDigit && h1 == '-' &&
    e.isDigit && f.isDigit && h2 == '-' && g.isDigit && i.isDigit
  | _ => false

/-- The `\s*\.?\s*` glue between a month name and what follows. -/
def eatWsDotWs (s : Str) : Str :=
  let s1 := s.dropWhile jsSpace
  let s2 := if s1.head? = some '.' then s1.tail else s1
  s2.dropWhile jsSpace

/-- `(\d{4})`: exactly four consecutive digits, returning the digit group
and the rest. -/
def year4 : Str → Option (Str × Str)
  | a :: b :: c :: d :: r =>
    if a.isDigit && b.isDigit && c.isDigit && d.isDigit then
      some ([a, b, c, d], r)
    else none
  | _ => none

/-- Month-name alternation of `toDateString` in `resumes.service.ts`
(`Jan(?:uary)?|...|Sep(?:tember)?|...`), flattened in the order a
JavaScript engine tries the alternatives (longer form of each month first;
note this pattern has no `Sept` form). -/
def monthAltsService : List Str :=
  [str "January", str "Jan", str "February", str "Feb", str "March", str "Mar",
   str "April", str "Apr", str "May", str "June", str "Jun", str "July", str "Jul",
   str "August", str "Aug", str "September", str "Sep",
   str "October", str "Oct", str "November", str "Nov", str "December", str "Dec"]

/-- Month-name alternation of `parseMonthYear` and of the experience date
pattern in the data extractor (`Sep(?:t(?:ember)?)?` also admits `Sept`). -/
def monthAltsFull : List Str :=
  [str "January", str "Jan", str "February", str "Feb", str "March", str "Mar",
   str "April", str "Apr", str "May", str "June", str "Jun", str "July", str "Jul",
   str "August", str "Aug", str "September", str "Sept", str "Sep",
   str "October", str "Oct", str "November", str "Nov", str "December", str "Dec"]

/-- Attempt `(?:(MONTH)\s*\.?\s*)?(\d{4})` at the current position: first the
month-led branch (each alternative with its continuation, as regex
backtracking does), then the bare year.  Returns (month group, year group,
rest). -/
def tryMonthYearHere (alts : List Str) (s : Str) : Option (Option Str × Str × Str) :=
  match alts.findSome? (fun alt =>
      (stripCI alt s).bind (fun r =>
        (year4 (eatWsDotWs r)).map (fun yr => (s.take alt.length, yr.1, yr.2)))) with
  | some (m, y, r) => some (some m, y, r)
  | none =>
    match year4 s with
    | some (y, r) => some (none, y, r)
    | none => none

/-- Leftmost match of `(?:(MONTH)\s*\.?\s*)?(\d{4})` in the input (JavaScript
`String.prototype.match` of an unanchored pattern): try each start position
from the left. -/
def monthYearSearch (alts : List Str) : Str → Option (Option Str × Str)
  | [] => none
  | c :: cs =>
    match tryMonthYearHere alts (c :: cs) with
    | some (m, y, _) => some (m, y)
    | none => monthYearSearch alts cs

/-- Month-name table of `toDateString` (keys are lowercased month forms). -/
def monthNumTable : List (Str × Str) :=
  [(str "jan", str "01"), (str "january", str "01"),
   (str "feb", str "02"), (str "february", str "02"),
   (str "mar", str "03"), (str "march", str "03"),
   (str "apr", str "04"), (str "april", str "04"),
   (str "may", str "05"),
   (str "jun", str "06"), (str "june", str "06"),
   (str "jul", str "07"), (str "july", str "07"),
   (str "aug", str "08"), (str "august", str "08"),
   (str "sep", str "09"), (str "september", str "09"),
   (str "oct", str "10"), (str "october", str "10"),
   (str "nov", str "11"), (str "november", str "11"),
   (str "dec", str "12"), (str "december", str "12")]

def lookupAssoc : List (Str × Str) → Str → Option Str
  | [], _ => none
  | p :: ps, k => if p.1 = k then some p.2 else lookupAssoc ps k

/-- The month number chosen by `toDateString` for the (optional) matched
month group: `monthStr ? (months[monthStr] || "01") : "01"`. -/
def monthGroupNum (m : Option Str) : Str :=
  match m with
  | some ms =>
    match lookupAssoc monthNumTable (lowerStr ms) with
    | some v => if v.isEmpty then str "01" else v
    | none => str "01"
  | none => str "01"

/-- Embeds `toDateString` of `src/modules/resumes/resumes.service.ts`:
a string already of shape `YYYY-MM-DD` is returned unchanged; otherwise the
first `Mon(th)? Year` / bare `Year` occurrence maps to `YYYY-MM-01`
(`months[monthStr] || "01"`), and the result is `null` when the pattern
does not match. -/
def toDateString (dateStr : Str) : Option Str :=
  if isoShape dateStr then some dateStr
  else
    match monthYearSearch monthAltsService dateStr with
    | none => none
    | some (m, y) => some (y ++ '-' :: (monthGroupNum m ++ str "-01"))

example : toDateString (str "2020-06-01") = some (str "2020-06-01") := by decide
example : toDateString (str "June 2020") = some (str "2020-06-01") := by decide
example : toDateString (str "May 2020") = some (str "2020-05-01") := by decide
example : toDateString (str "Sept 2020") = some (str "2020-01-01") := by decide
example : toDateString (str "2020") = some (str "2020-01-01") := by decide
example : toDateString (str "hello") = none := by decide
example : toDateString (str "Sept. 1, 2010") = some (str "2010-01-01") := by decide

/-! ### Character and scanner lemmas -/

theorem digit_not_space {c : Char} (h : c.isDigit = true) : jsSpace c = false := by
  cases hb : jsSpace c
  · rfl
  · exfalso
    have hd : c = ' ' ∨ c = '\t' ∨ c = '\n' ∨ c = '\x0d' ∨ c = '\x0b' ∨ c = '\x0c' ∨
        c = ' ' := by
      simpa [jsSpace, or_assoc] using hb
    rcases hd with h1 | h1 | h1 | h1 | h1 | h1 | h1 <;> (subst h1; exact absurd h (by decide))

theorem digit_ne_dot {c : Char} (h : c.isDigit = true) : ¬ c = '.' := by
  intro he; subst he; exact absurd h (by decide)

theorem eat_space_digits {a : Char} (t : Str) (ha : a.isDigit = true) :
    eatWsDotWs (' ' :: a :: t) = a :: t := by
  have hsp : jsSpace ' ' = true := by decide
  simp [eatWsDotWs, List.dropWhile, hsp, digit_not_space ha, digit_ne_dot ha]

theorem year4_eat_digits {a b c d : Char} (ha : a.isDigit = true) (hb : b.isDigit = true)
    (hc : c.isDigit = true) (hd : d.isDigit = true) :
    year4 (eatWsDotWs (' ' :: [a, b, c, d])) = some ([a, b, c, d], []) := by
  rw [eat_space_digits _ ha]
  simp [year4, ha, hb, hc, hd]

theorem year4_some {s y r : Str} (h : year4 s = some (y, r)) :
    y.length = 4 ∧ y.all Char.isDigit = true ∧ s = y ++ r := by
  match s with
  | [] => simp [year4] at h
  | [_] => simp [year4] at h
  | [_, _] => simp [year4] at h
  | [_, _, _] => simp [year4] at h
  | a :: b :: c :: d :: t =>
    rw [year4] at h
    by_cases hds : (a.isDigit && b.isDigit && c.isDigit && d.isDigit) = true
    · rw [if_pos hds] at h
      injection h with h2
      cases h2
      refine ⟨rfl, ?_, rfl⟩
      simpa [and_assoc] using hds
    · rw [if_neg hds] at h
      simp at h

theorem stripCI_suffix : ∀ (p s r : Str), stripCI p s = some r → r <:+ s := by
  intro p
  induction p with
  | nil =>
    intro s r h
    obtain rfl : s = r := by injection h
    exact List.suffix_refl _
  | cons pc pcs ih =>
    intro s r h
    cases s with
    | nil => simp [stripCI] at h
    | cons c cs =>
      rw [stripCI] at h
      by_cases hc : ciEqChar pc c = true
      · rw [if_pos hc] at h
        exact (ih cs r h).trans (List.suffix_cons c cs)
      · rw [if_neg hc] at h
        simp at h

theorem eatWsDotWs_suffix (s : Str) : eatWsDotWs s <:+ s := by
  unfold eatWsDotWs
  have h1 : s.dropWhile jsSpace <:+ s := List.dropWhile_suffix jsSpace
  by_cases hh : (s.dropWhile jsSpace).head? = some '.'
  · simp only [hh, if_pos]
    exact (List.dropWhile_suffix jsSpace).trans ((List.tail_suffix _).trans h1)
  · simp only [hh, if_neg, ite_false]
    exact (List.dropWhile_suffix jsSpace).trans h1

def hasRun4 : Str → Bool
  | a :: b :: c :: d :: r =>
    (a.isDigit && b.isDigit && c.isDigit && d.isDigit) || hasRun4 (b :: c :: d :: r)
  | _ => false

theorem hasRun4_cons {c : Char} {l : Str} (h : hasRun4 l = true) : hasRun4 (c :: l) = true := by
  match l with
  | [] => simp [hasRun4] at h
  | [_] => simp [hasRun4] at h
  | [_, _] => simp [hasRun4] at h
  | a :: b :: d :: e :: r =>
    rw [hasRun4]
    simp [h]

theorem hasRun4_of_suffix {s' s : Str} (hs : s' <:+ s) (h : hasRun4 s' = true) :
    hasRun4 s = true := by
  obtain ⟨t, rfl⟩ := hs
  induction t with
  | nil => exact h
  | cons c cs ih => exact hasRun4_cons ih

theorem year4_run {s y r : Str} (h : year4 s = some (y, r)) : hasRun4 s = true := by
  obtain ⟨hl, hdig, rfl⟩ := year4_some h
  match y, hl with
  | [a, b, c, d], _ =>
    simp only [List.all_cons, List.all_nil, Bool.and_true] at hdig
    simp only [Bool.and_eq_true] at hdig
    rw [List.cons_append, List.cons_append, List.cons_append, List.cons_append, hasRun4]
    simp [hdig.1, hdig.2.1, hdig.2.2.1, hdig.2.2.2]

theorem tryMonthYearHere_run {alts : List Str} {s : Str} {m : Option Str} {y r : Str}
    (h : tryMonthYearHere alts s = some (m, y, r)) : hasRun4 s = true := by
  unfold tryMonthYearHere at h
  cases hfs : alts.findSome? (fun alt =>
      (stripCI alt s).bind (fun rr =>
        (year4 (eatWsDotWs rr)).map (fun yr => (s.take alt.length, yr.1, yr.2)))) with
  | some v =>
    obtain ⟨alt, _, halt⟩ := List.exists_of_findSome?_eq_some hfs
    cases hstrip : stripCI alt s with
    | none => rw [hstrip] at halt; simp at halt
    | some rest =>
      rw [hstrip] at halt
      simp only [Option.some_bind] at halt
      cases hy : year4 (eatWsDotWs rest) with
      | none => rw [hy] at halt; simp at halt
      | some yr =>
        have hrun : hasRun4 (eatWsDotWs rest) = true := by
          obtain ⟨y1, r1⟩ := yr
          exact year4_run hy
        exact hasRun4_of_suffix
          ((eatWsDotWs_suffix rest).trans (stripCI_suffix alt s rest hstrip)) hrun
  | none =>
    rw [hfs] at h
    cases hy : year4 s with
    | none => rw [hy] at h; simp at h
    | some yr =>
      obtain ⟨y1, r1⟩ := yr
      exact year4_run hy

theorem tryMonthYearHere_year {alts : List Str} {s : Str} {m : Option Str} {y r : Str}
    (h : tryMonthYearHere alts s = some (m, y, r)) :
    y.length = 4 ∧ y.all Char.isDigit = true := by
  unfold tryMonthYearHere at h
  cases hfs : alts.findSome? (fun alt =>
      (stripCI alt s).bind (fun rr =>
        (year4 (eatWsDotWs rr)).map (fun yr => (s.take alt.length, yr.1, yr.2)))) with
  | some v =>
    rw [hfs] at h
    obtain ⟨m0, y0, r0⟩ := v
    obtain ⟨hm, hy0, hr0⟩ : some m0 = m ∧ y0 = y ∧ r0 = r := by simpa using h
    obtain ⟨alt, _, halt⟩ := List.exists_of_findSome?_eq_some hfs
    cases hstrip : stripCI alt s with
    | none => rw [hstrip] at halt; simp at halt
    | some rest =>
      rw [hstrip] at halt
      simp only [Option.some_bind] at halt
      cases hy : year4 (eatWsDotWs rest) with
      | none => rw [hy] at halt; simp at halt
      | some yr =>
        rw [hy] at halt
        simp only [Option.map_some'] at halt
        obtain ⟨he1, he2⟩ : s.take alt.length = m0 ∧ yr = (y0, r0) := by simpa using halt
        subst he2
        obtain ⟨hy1, hy2, _⟩ := year4_some hy
        rw [hy0] at hy1 hy2
        exact ⟨hy1, hy2⟩
  | none =>
    rw [hfs] at h
    cases hy : year4 s with
    | none => rw [hy] at h; simp at h
    | some yr =>
      rw [hy] at h
      obtain ⟨h4, hdig, _⟩ := year4_some hy
      obtain ⟨rfl, rfl, rfl⟩ : m = none ∧ y = yr.1 ∧ r = yr.2 := by
        refine ⟨?_, ?_, ?_⟩ <;> (injection h with h2; simp_all)
      exact ⟨h4, hdig⟩

theorem monthYearSearch_year {alts : List Str} :
    ∀ {s : Str} {m : Option Str} {y : Str}, monthYearSearch alts s = some (m, y) →
      y.length = 4 ∧ y.all Char.isDigit = true := by
  intro s
  induction s with
  | nil => intro m y h; simp [monthYearSearch] at h
  | cons c cs ih =>
    intro m y h
    rw [monthYearSearch] at h
    cases ht : tryMonthYearHere alts (c :: cs) with
    | some v =>
      rw [ht] at h
      obtain ⟨m0, y0, r0⟩ := v
      obtain ⟨rfl, rfl⟩ : m = m0 ∧ y = y0 := by
        constructor <;> (injection h with h2; simp_all)
      exact tryMonthYearHere_year ht
    | none =>
      rw [ht] at h
      exact ih h

theorem monthYearSearch_none_of_noRun {alts : List Str} :
    ∀ {s : Str}, hasRun4 s = false → monthYearSearch alts s = none := by
  intro s
  induction s with
  | nil => intro _; rfl
  | cons c cs ih =>
    intro h
    rw [monthYearSearch]
    cases ht : tryMonthYearHere alts (c :: cs) with
    | some v =>
      exfalso
      obtain ⟨m0, y0, r0⟩ := v
      have := tryMonthYearHere_run ht
      rw [this] at h
      simp at h
    | none =>
      have hcs : hasRun4 cs = false := by
        cases hb : hasRun4 cs
        · rfl
        · rw [hasRun4_cons hb] at h; simp at h
      exact ih hcs

theorem digit_toLower {c : Char} (h : c.isDigit = true) : c.toLower = c := by
  have h1 : 48 ≤ c.val.toNat ∧ c.val.toNat ≤ 57 := by
    simp [Char.isDigit] at h; exact ⟨h.1, h.2⟩
  rw [Char.toLower, if_neg]
  simp only [Char.toNat]
  omega

theorem lit_ne_digit {p c : Char} (hp : p.val.toNat < 48 ∨ 57 < p.val.toNat)
    (hc : c.isDigit = true) : (p = c) = False := by
  have hc1 : 48 ≤ c.val.toNat ∧ c.val.toNat ≤ 57 := by
    simp [Char.isDigit] at hc; exact ⟨hc.1, hc.2⟩
  simp only [eq_iff_iff, iff_false]
  intro he
  rw [he] at hp
  omega

theorem lookupAssoc_mem : ∀ (tbl : List (Str × Str)) (k v : Str),
    lookupAssoc tbl k = some v → ∃ p ∈ tbl, v = p.2 := by
  intro tbl
  induction tbl with
  | nil => intro k v h; simp [lookupAssoc] at h
  | cons p ps ih =>
    intro k v h
    rw [lookupAssoc] at h
    by_cases hk : p.1 = k
    · rw [if_pos hk] at h
      exact ⟨p, List.mem_cons_self p ps, by injection h with h2; rw [h2]⟩
    · rw [if_neg hk] at h
      obtain ⟨q, hq, hv⟩ := ih k v h
      exact ⟨q, List.mem_cons_of_mem p hq, hv⟩

theorem monthNum_shape : ∀ p ∈ monthNumTable,
    p.2.length = 2 ∧ p.2.all Char.isDigit = true := by decide

theorem monthGroupNum_digits (m : Option Str) :
    ∃ m1 m2 : Char, monthGroupNum m = [m1, m2] ∧ m1.isDigit = true ∧ m2.isDigit = true := by
  cases m with
  | none => exact ⟨'0', '1', rfl, by decide, by decide⟩
  | some ms =>
    rw [monthGroupNum]
    cases hlk : lookupAssoc monthNumTable (lowerStr ms) with
    | none => exact ⟨'0', '1', rfl, by decide, by decide⟩
    | some v =>
      obtain ⟨p, hp, rfl⟩ := lookupAssoc_mem _ _ _ hlk
      obtain ⟨hlen, hdig⟩ := monthNum_shape p hp
      match hv : p.2, hlen with
      | [m1, m2], _ =>
        rw [hv] at hdig
        simp only [List.all_cons, List.all_nil, Bool.and_true, Bool.and_eq_true] at hdig
        exact ⟨m1, m2, rfl, hdig.1, hdig.2⟩

theorem isoShape_build {a b c d m1 m2 : Char}
    (ha : a.isDigit = true) (hb : b.isDigit = true) (hc : c.isDigit = true)
    (hd : d.isDigit = true) (h1 : m1.isDigit = true) (h2 : m2.isDigit = true) :
    isoShape ([a, b, c, d] ++ '-' :: ([m1, m2] ++ str "-01")) = true := by
  simp [isoShape, str, ha, hb, hc, hd, h1, h2]

theorem toDateString_iso {s t : Str} (h : toDateString s = some t) : isoShape t = true := by
  unfold toDateString at h
  by_cases hiso : isoShape s = true
  · rw [if_pos hiso] at h
    obtain rfl : s = t := by injection h
    exact hiso
  · rw [if_neg hiso] at h
    cases hms : monthYearSearch monthAltsService s with
    | none => rw [hms] at h; simp at h
    | some my =>
      rw [hms] at h
      obtain ⟨m, y⟩ := my
      obtain ⟨hy4, hydig⟩ := monthYearSearch_year hms
      obtain ⟨m1, m2, hmv, hm1, hm2⟩ := monthGroupNum_digits m
      injection h with h2
      rw [hmv] at h2
      subst h2
      match y, hy4 with
      | [a, b, c, d], _ =>
        simp only [List.all_cons, List.all_nil, Bool.and_true, Bool.and_eq_true] at hydig
        exact isoShape_build hydig.1 hydig.2.1 hydig.2.2.1 hydig.2.2.2 hm1 hm2

theorem isoShape_run {s : Str} (h : isoShape s = true) : hasRun4 s = true := by
  match s with
  | [a, b, c, d, h1, e, f, h2, g, i] =>
    simp only [isoShape, Bool.and_eq_true] at h
    rw [hasRun4]
    simp [h.1.1.1.1.1.1.1.1.1, h.1.1.1.1.1.1.1.1.2, h.1.1.1.1.1.1.1.2, h.1.1.1.1.1.1.2]
  | [] => simp [isoShape] at h
  | [_] => simp [isoShape] at h
  | [_, _] => simp [isoShape] at h
  | [_, _, _] => simp [isoShape] at h
  | [_, _, _, _] => simp [isoShape] at h
  | [_, _, _, _, _] => simp [isoShape] at h
  | [_, _, _, _, _, _] => simp [isoShape] at h
  | [_, _, _, _, _, _, _] => simp [isoShape] at h
  | [_, _, _, _, _, _, _, _] => simp [isoShape] at h
  | [_, _, _, _, _, _, _, _, _] => simp [isoShape] at h
  | _ :: _ :: _ :: _ :: _ :: _ :: _ :: _ :: _ :: _ :: _ :: _ => simp [isoShape] at h

/-- Display-form month names accepted by the `toDateString` pattern, paired
with the month number its table assigns. -/
def monthNamePairs : List (Str × Str) :=
  [(str "January", str "01"), (str "Jan", str "01"),
   (str "February", str "02"), (str "Feb", str "02"),
   (str "March", str "03"), (str "Mar", str "03"),
   (str "April", str "04"), (str "Apr", str "04"),
   (str "May", str "05"),
   (str "June", str "06"), (str "Jun", str "06"),
   (str "July", str "07"), (str "Jul", str "07"),
   (str "August", str "08"), (str "Aug", str "08"),
   (str "September", str "09"), (str "Sep", str "09"),
   (str "October", str "10"), (str "Oct", str "10"),
   (str "November", str "11"), (str "Nov", str "11"),
   (str "December", str "12"), (str "Dec", str "12")]

theorem toDateString_monthName_aux (nm mm : Str) (hmem : (nm, mm) ∈ monthNamePairs)
    (a b c d : Char) (ha : a.isDigit = true) (hb : b.isDigit = true)
    (hc : c.isDigit = true) (hd : d.isDigit = true) :
    toDateString (nm ++ ' ' :: [a, b, c, d]) =
      some ([a, b, c, d] ++ '-' :: (mm ++ str "-01")) := by
  have hy := year4_eat_digits ha hb hc hd
  fin_cases hmem <;>
    simp [toDateString, isoShape, monthYearSearch, tryMonthYearHere, monthAltsService,
      List.findSome?, stripCI, ciEqChar, str, hy, monthGroupNum, lookupAssoc,
      monthNumTable, lowerStr, ha, hb, hc, hd]

/-- C6: `toDateString` returns a string already matching `YYYY-MM-DD`
unchanged; it maps a month name (possibly abbreviated) followed by a 4-digit
year to `YYYY-MM-01`, and a string with a 4-digit year but no month name to
`YYYY-01-01`; on a string with no run of four digits (hence no match of its
pattern) it returns `null`; consequently it is idempotent wherever it
succeeds, and the identity on already-ISO inputs. -/
theorem toDateString_normaliser :
    (∀ s : Str, isoShape s = true → toDateString s = some s) ∧
    (∀ nm mm : Str, (nm, mm) ∈ monthNamePairs → ∀ a b c d : Char,
      a.isDigit = true → b.isDigit = true → c.isDigit = true → d.isDigit = true →
      toDateString (nm ++ ' ' :: [a, b, c, d]) =
        some ([a, b, c, d] ++ '-' :: (mm ++ str "-01"))) ∧
    (∀ a b c d : Char,
      a.isDigit = true → b.isDigit = true → c.isDigit = true → d.isDigit = true →
      toDateString [a, b, c, d] = some ([a, b, c, d] ++ '-' :: (str "01" ++ str "-01"))) ∧
    (∀ s : Str, hasRun4 s = false → toDateString s = none) ∧
    (∀ s t : Str, toDateString s = some t → toDateString t = some t) := by
  refine ⟨?_, ?_, ?_, ?_, ?_⟩
  · intro s h
    simp [toDateString, h]
  · exact toDateString_monthName_aux
  · intro a b c d ha hb hc hd
    have hla := digit_toLower ha
    have n1 : ('j' = a) = False := lit_ne_digit (by decide) ha
    have n2 : ('f' = a) = False := lit_ne_digit (by decide) ha
    have n3 : ('m' = a) = False := lit_ne_digit (by decide) ha
    have n4 : ('a' = a) = False := lit_ne_digit (by decide) ha
    have n5 : ('s' = a) = False := lit_ne_digit (by decide) ha
    have n6 : ('o' = a) = False := lit_ne_digit (by decide) ha
    have n7 : ('n' = a) = False := lit_ne_digit (by decide) ha
    have n8 : ('d' = a) = False := lit_ne_digit (by decide) ha
    simp [toDateString, isoShape, monthYearSearch, tryMonthYearHere, monthAltsService,
      List.findSome?, stripCI, ciEqChar, str, monthGroupNum, year4, ha, hb, hc, hd,
      hla, n1, n2, n3, n4, n5, n6, n7, n8]
  · intro s h
    have hiso : isoShape s = false := by
      cases hi : isoShape s
      · rfl
      · rw [isoShape_run hi] at h; simp at h
    rw [toDateString, if_neg (by simp [hiso]), monthYearSearch_none_of_noRun h]
  · intro s t h
    have hi := toDateString_iso h
    simp [toDateString, hi]

/-- Witness for C6 at concrete inputs. -/
theorem toDateString_normaliser_witness :
    toDateString (str "2020-06-01") = some (str "2020-06-01") ∧
    toDateString (str "June" ++ ' ' :: ['2', '0', '2', '0']) =
      some (['2', '0', '2', '0'] ++ '-' :: (str "06" ++ str "-01")) ∧
    toDateString ['2', '0', '1', '9'] = some (['2', '0', '1', '9'] ++ '-' :: (str "01" ++ str "-01")) ∧
    toDateString (str "hello") = none ∧
    toDateString (str "2020-06-01") = some (str "2020-06-01") :=
  ⟨toDateString_normaliser.1 _ (by decide),
   toDateString_normaliser.2.1 (str "June") (str "06") (by decide) '2' '0' '2' '0'
     (by decide) (by decide) (by decide) (by decide),
   toDateString_normaliser.2.2.1 '2' '0' '1' '9' (by decide) (by decide) (by decide) (by decide),
   toDateString_normaliser.2.2.2.1 _ (by decide),
   toDateString_normaliser.2.2.2.2 (str "June 2020") _ (by decide)⟩

/-! ### Tenure computer: `parseMonthYear` and `calculateYearsOfExperience` -/

/-- Date value as constructed by `new Date(year, month, 1)`: a year and a
0-based month index (only these two components are read back). -/
structure JsDate where
  year : Int
  month : Int
deriving Repr, DecidableEq

/-- Month-index table of `parseMonthYear` (0-based JavaScript month
indices; keys are the lowercased forms of the month alternation). -/
def monthIdxTable : List (Str × Int) :=
  [(str "jan", 0), (str "january", 0),
   (str "feb", 1), (str "february", 1),
   (str "mar", 2), (str "march", 2),
   (str "apr", 3), (str "april", 3),
   (str "may", 4),
   (str "jun", 5), (str "june", 5),
   (str "jul", 6), (str "july", 6),
   (str "aug", 7), (str "august", 7),
   (str "sep", 8), (str "sept", 8), (str "september", 8),
   (str "oct", 9), (str "october", 9),
   (str "nov", 10), (str "november", 10),
   (str "dec", 11), (str "december", 11)]

def lookupIdx : List (Str × Int) → Str → Option Int
  | [], _ => none
  | p :: ps, k => if p.1 = k then some p.2 else lookupIdx ps k

/-- `parseInt` on a group of decimal digit characters. -/
def natOfDigits (s : Str) : Nat :=
  s.foldl (fun acc c => acc * 10 + (c.toNat - 48)) 0

/-- Embeds `parseMonthYear` of the data extractor: leftmost match of
`(?:(MONTH)\s*\.?\s*)?(\d{4})` (month alternation including `Sept`); the
year is `parseInt(match[2])`, the month is the table value of the lowercased
month group (`?? 0`), and 0 when the month group is absent.  The result is
`new Date(year, month, 1)`, which maps a year in `[0, 99]` to `1900 + year`. -/
def parseMonthYear (dateStr : Str) : Option JsDate :=
  match monthYearSearch monthAltsFull dateStr with
  | none => none
  | some (m, y) =>
    let month : Int := match m with
      | some ms =>
        match lookupIdx monthIdxTable (lowerStr ms) with
        | some v => v
        | none => 0
      | none => 0
    let year : Int := (natOfDigits y : Int)
    some ⟨if 0 ≤ year ∧ year ≤ 99 then 1900 + year else year, month⟩

/-- Experience entry of the rule-based extractor / parsed record (all
fields optional, as in the TypeScript record type). -/
structure ExperienceEntry where
  employer : Option Str := none
  position : Option Str := none
  type : Option Str := none
  start_date : Option Str := none
  end_date : Option Str := none
  department : Option Str := none
  description : Option Str := none
  location : Option Str := none
deriving Repr, DecidableEq

/-- Embeds `calculateYearsOfExperience`: for each entry with a (truthy and)
parsable `start_date`, months between the parsed start and either `now`
(end date falsy or matching `/present|current/i`) or the parsed end (entry
skipped if that fails); negative deltas clamp to 0; returns
`floor(total/12)` when the total is positive and `undefined` otherwise
(also `undefined` on an empty list). -/
def calculateYearsOfExperience (now : JsDate) (experience : List ExperienceEntry) : Option Int :=
  if experience.length = 0 then none
  else
    let totalMonths : Int := experience.foldl (fun acc exp =>
      match exp.start_date with
      | none => acc
      | some sd =>
        if sd.isEmpty then acc
        else
          match parseMonthYear sd with
          | none => acc
          | some start =>
            let endDate : Option JsDate :=
              match exp.end_date with
              | none => some now
              | some ed =>
                if ed.isEmpty || containsAnyCI [str "present", str "current"] ed then some now
                else parseMonthYear ed
            match endDate with
            | none => acc
            | some e =>
              acc + max 0 ((e.year - start.year) * 12 + (e.month - start.month))) 0
    if 0 < totalMonths then some (totalMonths / 12) else none

/-- Stated from the claim: the month contribution of one entry — the
difference in months between the parsed start and either now (end missing
or matching present/current) or the parsed end, clamped at 0; an entry
whose needed date does not parse contributes nothing. -/
def claimEntryMonths (now : JsDate) (exp : ExperienceEntry) : Int :=
  match exp.start_date with
  | none => 0
  | some sd =>
    if sd.isEmpty then 0
    else
      match parseMonthYear sd with
      | none => 0
      | some start =>
        let endDate : Option JsDate :=
          match exp.end_date with
          | none => some now
          | some ed =>
            if ed.isEmpty || containsAnyCI [str "present", str "current"] ed then some now
            else parseMonthYear ed
        match endDate with
        | none => 0
        | some e => max 0 ((e.year - start.year) * 12 + (e.month - start.month))

/-- Stated from the claim: the sum over entries of the clamped month
differences. -/
def claimMonthSum (now : JsDate) (experience : List ExperienceEntry) : Int :=
  (experience.map (claimEntryMonths now)).sum

theorem fold_months_eq (now : JsDate) :
    ∀ (exps : List ExperienceEntry) (acc : Int),
      exps.foldl (fun acc exp =>
        match exp.start_date with
        | none => acc
        | some sd =>
          if sd.isEmpty then acc
          else
            match parseMonthYear sd with
            | none => acc
            | some start =>
              let endDate : Option JsDate :=
                match exp.end_date with
                | none => some now
                | some ed =>
                  if ed.isEmpty || containsAnyCI [str "present", str "current"] ed then some now
                  else parseMonthYear ed
              match endDate with
              | none => acc
              | some e =>
                acc + max 0 ((e.year - start.year) * 12 + (e.month - start.month))) acc =
      acc + claimMonthSum now exps := by
  intro exps
  induction exps with
  | nil => intro acc; simp [claimMonthSum]
  | cons e es ih =>
    intro acc
    rw [List.foldl_cons]
    have hstep : ∀ a : Int,
        (match e.start_date with
        | none => a
        | some sd =>
          if sd.isEmpty then a
          else
            match parseMonthYear sd with
            | none => a
            | some start =>
              let endDate : Option JsDate :=
                match e.end_date with
                | none => some now
                | some ed =>
                  if ed.isEmpty || containsAnyCI [str "present", str "current"] ed then some now
                  else parseMonthYear ed
              match endDate with
              | none => a
              | some en =>
                a + max 0 ((en.year - start.year) * 12 + (en.month - start.month))) =
        a + claimEntryMonths now e := by
      intro a
      rw [claimEntryMonths]
      cases e.start_date with
      | none => simp
      | some sd =>
        by_cases hemp : sd.isEmpty = true
        · simp [hemp]
        · simp only [Bool.not_eq_true] at hemp
          simp only [hemp, Bool.false_eq_true, if_false]
          cases parseMonthYear sd with
          | none => simp
          | some start =>
            cases e.end_date with
            | none => simp
            | some ed =>
              by_cases hpe : (ed.isEmpty || containsAnyCI [str "present", str "current"] ed) = true
              · simp [hpe]
              · simp only [Bool.not_eq_true] at hpe
                simp only [hpe, Bool.false_eq_true, if_false]
                cases parseMonthYear ed with
                | none => simp
                | some en => simp
    rw [hstep]
    rw [ih]
    rw [claimMonthSum, claimMonthSum]
    simp [add_assoc]

/-- C3 (amended): `calculateYearsOfExperience` returns
`floor(claimMonthSum/12)` precisely when the clamped month sum is positive,
and no value (not 0) when the sum is zero — in particular on the empty list
and when every span is non-positive. -/
theorem calculateYears_formula (now : JsDate) (exps : List ExperienceEntry) :
    calculateYearsOfExperience now exps =
      (if 0 < claimMonthSum now exps then some (claimMonthSum now exps / 12) else none) := by
  rw [calculateYearsOfExperience]
  by_cases hlen : exps.length = 0
  · obtain rfl : exps = [] := List.length_eq_zero.mp hlen
    simp [claimMonthSum]
  · rw [if_neg hlen]
    have := fold_months_eq now exps 0
    simp only [zero_add] at this
    rw [this]

/-- C3 counterexample: a single entry whose start and end are the same
month gives a zero month sum; the claimed formula yields
`floor(0/12) = 0` but the function returns no value. -/
theorem calculateYears_counterexample :
    calculateYearsOfExperience ⟨2026, 9⟩
      [{ start_date := some (str "June 2020"), end_date := some (str "June 2020") }] = none ∧
    claimMonthSum ⟨2026, 9⟩
      [{ start_date := some (str "June 2020"), end_date := some (str "June 2020") }] = 0 := by
  constructor
  · decide
  · decide

/-- Witness for C3 at a concrete input with a positive month sum. -/
theorem calculateYears_formula_witness :
    calculateYearsOfExperience ⟨2026, 9⟩
      [{ start_date := some (str "June 2020"), end_date := some (str "March 2023") }] =
      some 2 :=
  Eq.trans (calculateYears_formula ⟨2026, 9⟩
    [{ start_date := some (str "June 2020"), end_date := some (str "March 2023") }]) (by decide)

/-! ### Graduation-year extractor -/

/-- `String.prototype.split("\n")`. -/
def splitOnNl : Str → List Str
  | [] => [[]]
  | c :: cs =>
    let r := splitOnNl cs
    if c = '\n' then [] :: r
    else (c :: r.headD []) :: r.tail

/-- A `\b` boundary holds before the current position. -/
def wordBoundaryOk (prev : Option Char) : Bool :=
  match prev with
  | none => true
  | some c => !wordChar c

/-- A `\b` boundary holds after the matched text. -/
def afterBoundaryOk : Str → Bool
  | [] => true
  | r :: _ => !wordChar r

/-- One attempt of `\b(19[6-9]\d|20[0-2]\d)\b` at the current position. -/
def yearPatHere (prev : Option Char) : Str → Option Int
  | c1 :: c2 :: c3 :: c4 :: rest =>
    if wordBoundaryOk prev = true ∧
        ((c1 = '1' ∧ c2 = '9' ∧ '6' ≤ c3 ∧ c3 ≤ '9' ∧ c4.isDigit = true) ∨
         (c1 = '2' ∧ c2 = '0' ∧ '0' ≤ c3 ∧ c3 ≤ '2' ∧ c4.isDigit = true)) ∧
        afterBoundaryOk rest = true then
      some ((natOfDigits [c1, c2, c3, c4] : Int))
    else none
  | _ => none

/-- Leftmost match of `\b(19[6-9]\d|20[0-2]\d)\b`. -/
def yearSearch : Option Char → Str → Option Int
  | _, [] => none
  | prev, c :: cs =>
    match yearPatHere prev (c :: cs) with
    | some v => some v
    | none => yearSearch (some c) cs

/-- The education-keyword alternation of `extractGraduationYear`
(`Ph\.?D` contributes both spellings; all matching is a bare
case-insensitive substring test). -/
def educationKeywords : List Str :=
  [str "graduat", str "Bachelor", str "Master", str "Doctorate", str "PhD", str "Ph.D",
   str "degree", str "diploma", str "university", str "college",
   str "B.S", str "M.S", str "MBA", str "B.A", str "M.A"]

/-- Per-line step of the first pass of `extractGraduationYear`. -/
def gradLineScan (currentYear : Int) (line : Str) : Option Int :=
  if containsAnyCI educationKeywords line then
    match yearSearch none line with
    | some y => if 1960 ≤ y ∧ y ≤ currentYear + 6 then some y else none
    | none => none
  else none

/-- Per-index step of the fallback pass of `extractGraduationYear`: a
window of lines `[i-1, i+2]` around an occurrence of `graduat`, joined
with spaces. -/
def gradWindowScan (currentYear : Int) (lines : List Str) (i : Nat) : Option Int :=
  if containsCI (str "graduat") (lines.getD i []) then
    match yearSearch none
        (List.intercalate [' '] ((lines.drop (i - 1)).take (i + 3 - (i - 1)))) with
    | some y => if 1960 ≤ y ∧ y ≤ currentYear + 6 then some y else none
    | none => none
  else none

/-- Embeds `extractGraduationYear`: on each line containing an education
keyword, take the first `\b(19[6-9]\d|20[0-2]\d)\b` year and return it when
it lies in `[1960, currentYear + 6]`; otherwise fall back to windows
around each occurrence of `graduat` with the same year test. -/
def extractGraduationYear (currentYear : Int) (text : Str) : Option Int :=
  match (splitOnNl text).findSome? (gradLineScan currentYear) with
  | some y => some y
  | none =>
    (List.range (splitOnNl text).length).findSome?
      (gradWindowScan currentYear (splitOnNl text))

theorem yearPatHere_bounds {prev : Option Char} {s : Str} {v : Int}
    (h : yearPatHere prev s = some v) : 1960 ≤ v ∧ v ≤ 2029 := by
  match s with
  | [] => simp [yearPatHere] at h
  | [_] => simp [yearPatHere] at h
  | [_, _] => simp [yearPatHere] at h
  | [_, _, _] => simp [yearPatHere] at h
  | c1 :: c2 :: c3 :: c4 :: rest =>
    rw [yearPatHere] at h
    split at h
    · rename_i hcond
      obtain ⟨-, hdisj, -⟩ := hcond
      obtain rfl : (natOfDigits [c1, c2, c3, c4] : Int) = v := by injection h
      rcases hdisj with ⟨rfl, rfl, h3a, h3b, h4⟩ | ⟨rfl, rfl, h3a, h3b, h4⟩
      · have h4' : 48 ≤ c4.toNat ∧ c4.toNat ≤ 57 := by
          simp [Char.isDigit] at h4; exact ⟨h4.1, h4.2⟩
        have hlo : (54 : Nat) ≤ c3.toNat := h3a
        have hhi : c3.toNat ≤ (57 : Nat) := h3b
        have e1 : ('1' : Char).toNat = 49 := by decide
        have e2 : ('9' : Char).toNat = 57 := by decide
        have hn : 1960 ≤ natOfDigits ['1', '9', c3, c4] ∧
            natOfDigits ['1', '9', c3, c4] ≤ 2029 := by
          simp only [natOfDigits, List.foldl_cons, List.foldl_nil, e1, e2]
          omega
        constructor
        · exact_mod_cast hn.1
        · exact_mod_cast hn.2
      · have h4' : 48 ≤ c4.toNat ∧ c4.toNat ≤ 57 := by
          simp [Char.isDigit] at h4; exact ⟨h4.1, h4.2⟩
        have hlo : (48 : Nat) ≤ c3.toNat := h3a
        have hhi : c3.toNat ≤ (50 : Nat) := h3b
        have e1 : ('2' : Char).toNat = 50 := by decide
        have e2 : ('0' : Char).toNat = 48 := by decide
        have hn : 1960 ≤ natOfDigits ['2', '0', c3, c4] ∧
            natOfDigits ['2', '0', c3, c4] ≤ 2029 := by
          simp only [natOfDigits, List.foldl_cons, List.foldl_nil, e1, e2]
          omega
        constructor
        · exact_mod_cast hn.1
        · exact_mod_cast hn.2
    · simp at h

theorem yearSearch_bounds : ∀ {prev : Option Char} {s : Str} {v : Int},
    yearSearch prev s = some v → 1960 ≤ v ∧ v ≤ 2029 := by
  intro prev s
  induction s generalizing prev with
  | nil => intro v h; simp [yearSearch] at h
  | cons c cs ih =>
    intro v h
    rw [yearSearch] at h
    cases hy : yearPatHere prev (c :: cs) with
    | some w =>
      rw [hy] at h
      obtain rfl : w = v := by injection h
      exact yearPatHere_bounds hy
    | none =>
      rw [hy] at h
      exact ih h

theorem gradLineScan_bounds {cy : Int} {line : Str} {w : Int}
    (h : gradLineScan cy line = some w) :
    1960 ≤ w ∧ w ≤ cy + 6 ∧ w ≤ 2029 := by
  rw [gradLineScan] at h
  split at h
  · split at h
    · rename_i yy hys
      split at h
      · rename_i hrange
        obtain rfl : yy = w := by injection h
        exact ⟨hrange.1, hrange.2, (yearSearch_bounds hys).2⟩
      · simp at h
    · simp at h
  · simp at h

theorem gradWindowScan_bounds {cy : Int} {lines : List Str} {i : Nat} {w : Int}
    (h : gradWindowScan cy lines i = some w) :
    1960 ≤ w ∧ w ≤ cy + 6 ∧ w ≤ 2029 := by
  rw [gradWindowScan] at h
  split at h
  · split at h
    · rename_i yy hys
      split at h
      · rename_i hrange
        obtain rfl : yy = w := by injection h
        exact ⟨hrange.1, hrange.2, (yearSearch_bounds hys).2⟩
      · simp at h
    · simp at h
  · simp at h

/-- C7 (amended): any value returned by `extractGraduationYear` lies in
`[1960, currentYear + 6]` and also at most 2029 — the year pattern
`19[6-9]\d|20[0-2]\d` cannot match years above 2029, so the extractor does
not accept every year of `[1960, currentYear + 6]` once that interval
extends past 2029. -/
theorem extractGraduationYear_range (currentYear : Int) (text : Str) (y : Int)
    (h : extractGraduationYear currentYear text = some y) :
    1960 ≤ y ∧ y ≤ currentYear + 6 ∧ y ≤ 2029 := by
  rw [extractGraduationYear] at h
  cases hfs : (splitOnNl text).findSome? (gradLineScan currentYear) with
  | some w =>
    rw [hfs] at h
    obtain rfl : w = y := by injection h
    obtain ⟨line, -, hl⟩ := List.exists_of_findSome?_eq_some hfs
    exact gradLineScan_bounds hl
  | none =>
    rw [hfs] at h
    obtain ⟨i, -, hl⟩ := List.exists_of_findSome?_eq_some h
    exact gradWindowScan_bounds hl

/-- C7 counterexample: `2030` lies in `[1960, 2026 + 6]` on a line with an
education keyword, yet the extractor rejects it (its regex stops at 2029). -/
theorem extractGraduationYear_counterexample :
    extractGraduationYear 2026 (str "university 2030") = none ∧
    (1960 : Int) ≤ 2030 ∧ (2030 : Int) ≤ 2026 + 6 := by
  refine ⟨by decide, by decide, by decide⟩

/-- Witness for C7 at a concrete accepting input. -/
theorem extractGraduationYear_range_witness :
    (1960 : Int) ≤ 2016 ∧ (2016 : Int) ≤ 2026 + 6 ∧ (2016 : Int) ≤ 2029 :=
  extractGraduationYear_range 2026 (str "university 2016") 2016 (by decide)

/-! ### Parsed record, confidence scorer, LLM adapter, hybrid selection -/

structure EducationEntry where
  institution : Option Str := none
  degree : Option Str := none
  field_of_study : Option Str := none
  year : Option Int := none
  institution_location : Option Str := none
  start_date : Option Str := none
  end_date : Option Str := none
  status : Option Str := none
deriving Repr, DecidableEq

structure Certification where
  type : Str
  number : Option Str := none
  score : Option Str := none
deriving Repr, DecidableEq

structure ParsedResumeData where
  summary : Option Str := none
  address : Option Str := none
  graduation_year : Option Int := none
  years_of_experience : Option Int := none
  salary : Option Str := none
  hospitals : Option (List Str) := none
  skills : Option (List Str) := none
  certifications : Option (List Certification) := none
  experience : Option (List ExperienceEntry) := none
  education : Option (List EducationEntry) := none
deriving Repr, DecidableEq

/-- JavaScript truthiness of an optional string (absent or empty is falsy). -/
def truthy : Option Str → Bool
  | none => false
  | some s => !s.isEmpty

/-- `String.prototype.split(/\s+/)` (pieces, including the empty pieces a
leading or trailing separator produces; a run of separators is one break). -/
def splitWs : Str → List Str
  | [] => [[]]
  | [c] => if jsSpace c then [[], []] else [[c]]
  | c :: c2 :: cs =>
    if jsSpace c then
      if jsSpace c2 then splitWs (c2 :: cs)
      else [] :: splitWs (c2 :: cs)
    else (c :: (splitWs (c2 :: cs)).headD []) :: (splitWs (c2 :: cs)).tail

/-- `/[.!]$/.test(s.trim())`. -/
def endsPeriodBang (s : Str) : Bool :=
  match (trimStr s).getLast? with
  | some c => c == '.' || c == '!'
  | none => false

/-- The filter of "good" experience entries in `scoreParseConfidence`. -/
def goodExpEntry (e : ExperienceEntry) : Bool :=
  truthy e.position && truthy e.employer && truthy e.start_date &&
  decide ((e.position.getD []).length < 60) &&
  decide ((splitWs (e.employer.getD [])).length ≤ 8) &&
  !endsPeriodBang (e.employer.getD [])

/-- The "good education" test of `scoreParseConfidence`. -/
def goodEduEntry (e : EducationEntry) : Bool :=
  truthy e.degree && truthy e.institution && decide ((e.institution.getD []).length < 80)

/-- A `\b` between two neighbouring characters: exactly one side is a word
character (an absent side counts as non-word). -/
def boundaryOk (left right : Option Char) : Bool :=
  (match left with | none => false | some c => wordChar c) !=
  (match right with | none => false | some c => wordChar c)

/-- A single `\b<pat>\b` attempt at the current position (the boundaries
are evaluated against the pattern's first and last matched characters, so
alternatives ending in `.` such as `Co\.` need a word character next). -/
def wordBoundedHere (prev : Option Char) (pat : Str) (s : Str) : Bool :=
  match stripCI pat s with
  | some rest =>
    boundaryOk prev s.head? && boundaryOk (s.take pat.length).getLast? rest.head?
  | none => false

/-- Unanchored test of `\b(p1|p2|...)\b` over the input. -/
def searchWordBounded (pats : List Str) : Option Char → Str → Bool
  | prev, [] => pats.any (fun p => wordBoundedHere prev p [])
  | prev, c :: cs =>
    pats.any (fun p => wordBoundedHere prev p (c :: cs)) || searchWordBounded pats (some c) cs

/-- The work-keyword alternation of the first raw-text penalty. -/
def workKeywordPats : List Str :=
  [str "experience", str "employment", str "work history", str "professional",
   str "hospital", str "nurse at", str "staff nurse", str "registered nurse"]

/-- Matches `<a>\s+<b>` at the current position (the `\s+` is mandatory). -/
def seqWithSpaces (a b s : Str) : Bool :=
  match stripCI a s with
  | none => false
  | some rest =>
    let rest2 := rest.dropWhile jsSpace
    decide (rest2.length < rest.length) && (stripCI b rest2).isSome

/-- Matches `.*<pat>` from the current position (`.` excludes line breaks). -/
def dotStarThen (pat : Str) : Str → Bool
  | [] => (stripCI pat []).isSome
  | c :: cs => (stripCI pat (c :: cs)).isSome || (dotChar c && dotStarThen pat cs)

/-- One attempt of the clinical-placement section pattern
`\b(clinical\s+placement|clinical\s+rotation|consolidation.*hours|pre-consolidation)`
at the current position. -/
def placementHere (prev : Option Char) (s : Str) : Bool :=
  wordBoundaryOk prev &&
  (seqWithSpaces (str "clinical") (str "placement") s ||
   seqWithSpaces (str "clinical") (str "rotation") s ||
   (match stripCI (str "consolidation") s with
    | some rest => dotStarThen (str "hours") rest
    | none => false) ||
   (stripCI (str "pre-consolidation") s).isSome)

def searchPlacement : Option Char → Str → Bool
  | prev, [] => placementHere prev []
  | prev, c :: cs => placementHere prev (c :: cs) || searchPlacement (some c) cs

/-- Embeds `scoreParseConfidence` of `src/shared/ai-resume-parser.ts`
(the ratio test `incomplete / total > 0.5` is rendered as
`2 * incomplete > total`). -/
def scoreParseConfidence (result : ParsedResumeData) (rawText : Option Str) : Int :=
  let expScore : Int :=
    match result.experience with
    | some exps =>
      if exps.length > 0 then
        (if (exps.filter goodExpEntry).length > 0 then 30 else 5) +
        (if exps.length > 0 ∧ 2 * (exps.filter
            (fun e => !truthy e.position || !truthy e.employer)).length > exps.length
          then -15 else 0)
      else 0
    | none => 0
  let eduScore : Int :=
    match result.education with
    | some edus =>
      if edus.length > 0 then (if edus.any goodEduEntry then 25 else 8) else 0
    | none => 0
  let summaryScore : Int :=
    if truthy result.summary ∧ (result.summary.getD []).length > 30 then 10 else 0
  let certScore : Int :=
    match result.certifications with
    | some cs => if cs.length > 0 then 10 else 0
    | none => 0
  let skillScore : Int :=
    match result.skills with
    | some sk => if sk.length ≥ 3 then 10 else 0
    | none => 0
  let addressScore : Int := if truthy result.address then 5 else 0
  let descScore : Int :=
    match result.experience with
    | some exps => if exps.any (fun e => truthy e.description) then 10 else 0
    | none => 0
  let noExpPenalty : Int :=
    match rawText with
    | some t =>
      if (match result.experience with
          | none => true
          | some exps => decide (exps.length = 0)) = true then
        if searchWordBounded workKeywordPats none t then -15 else 0
      else 0
    | none => 0
  let placementPenalty : Int :=
    match rawText, result.experience with
    | some t, some exps =>
      if searchPlacement none t ∧
          ¬ exps.any (fun e => e.type = some (str "clinical_placement")) then -15
      else 0
    | _, _ => 0
  max 0 (expScore + eduScore + summaryScore + certScore + skillScore + addressScore +
    descScore + noExpPenalty + placementPenalty)

theorem scoreParseConfidence_nonneg (result : ParsedResumeData) (rawText : Option Str) :
    0 ≤ scoreParseConfidence result rawText := by
  rw [scoreParseConfidence.eq_def]
  dsimp only
  exact le_max_left 0 _

/-- Embeds the selection step of `extractResumeDataHybrid` (lines 1712-1744
of the data extractor): `regexResult` stands for `extractResumeData(text)`
and `aiResult` for `await extractResumeDataAI(text)`; the chosen record is
then handed to the post-processing passes. -/
def extractResumeDataHybridSelect (regexResult aiResult : ParsedResumeData)
    (text : Str) : ParsedResumeData :=
  if scoreParseConfidence regexResult (some text) ≥ 55 then regexResult
  else
    if scoreParseConfidence aiResult none > scoreParseConfidence regexResult (some text) then
      aiResult
    else regexResult

/-- Raw experience item of the model's JSON, before normalisation. -/
structure AiRawEntry where
  employer : Option Str := none
  position : Option Str := none
  type : Option Str := none
  start_date : Option Str := none
  end_date : Option Str := none
  description : Option Str := none
  location : Option Str := none
  department : Option Str := none
deriving Repr, DecidableEq

/-- Raw education item of the model's JSON. -/
structure AiRawEducation where
  institution : Option Str := none
  degree : Option Str := none
  field_of_study : Option Str := none
  year : Option Int := none
  institution_location : Option Str := none
  start_date : Option Str := none
  end_date : Option Str := none
  status : Option Str := none
deriving Repr, DecidableEq

/-- Raw certification item of the model's JSON. -/
structure AiRawCert where
  type : Option Str := none
  number : Option Str := none
  score : Option Str := none
deriving Repr, DecidableEq

/-- The parsed JSON shape consumed by `extractResumeDataAI`. -/
structure AiRawData where
  summary : Option Str := none
  address : Option Str := none
  graduation_year : Option Int := none
  years_of_experience : Option Int := none
  experience : Option (List AiRawEntry) := none
  education : Option (List AiRawEducation) := none
  certifications : Option (List AiRawCert) := none
  skills : Option (List Str) := none
  hospitals : Option (List Str) := none
deriving Repr, DecidableEq

/-- `x || undefined` on an optional string. -/
def jsOrNone (o : Option Str) : Option Str := if truthy o then o else none

/-- Number truthiness (`0` is falsy). -/
def numTruthy : Option Int → Bool
  | none => false
  | some n => decide (n ≠ 0)

/-- The normalisation of one raw experience item
(`type: e.type || "employment"`, empty strings to `undefined`). -/
def mapAiEntry (e : AiRawEntry) : ExperienceEntry where
  employer := jsOrNone e.employer
  position := jsOrNone e.position
  type := some (if truthy e.type then e.type.getD [] else str "employment")
  start_date := jsOrNone e.start_date
  end_date := jsOrNone e.end_date
  description := jsOrNone e.description
  location := jsOrNone e.location
  department := jsOrNone e.department

def mapAiEducation (e : AiRawEducation) : EducationEntry where
  institution := jsOrNone e.institution
  degree := jsOrNone e.degree
  field_of_study := jsOrNone e.field_of_study
  year := if numTruthy e.year then e.year else none
  institution_location := jsOrNone e.institution_location
  start_date := jsOrNone e.start_date
  end_date := jsOrNone e.end_date
  status := jsOrNone e.status

def mapAiCert (c : AiRawCert) : Certification where
  type := if truthy c.type then c.type.getD [] else str "Unknown"
  number := jsOrNone c.number
  score := jsOrNone c.score

/-- The mapping of the model's JSON to the parsed-record shape, embedding
the normalisation block of `extractResumeDataAI`. -/
def mapAiResponse (parsed : AiRawData) : ParsedResumeData where
  summary := jsOrNone parsed.summary
  address := jsOrNone parsed.address
  graduation_year := if numTruthy parsed.graduation_year then parsed.graduation_year else none
  years_of_experience := parsed.years_of_experience
  experience :=
    match parsed.experience with
    | some l => if l.length > 0 then some (l.map mapAiEntry) else none
    | none => none
  education :=
    match parsed.education with
    | some l => if l.length > 0 then some (l.map mapAiEducation) else none
    | none => none
  certifications :=
    match parsed.certifications with
    | some l => if l.length > 0 then some (l.map mapAiCert) else none
    | none => none
  skills :=
    match parsed.skills with
    | some l => if l.length > 0 then some (l.filter (fun s => !s.isEmpty)) else none
    | none => none
  hospitals :=
    match parsed.hospitals with
    | some l => if l.length > 0 then some (l.filter (fun s => !s.isEmpty)) else none
    | none => none

/-- Embeds `extractResumeDataAI` of `src/shared/ai-resume-parser.ts`: the
LLM call and JSON parse are abstracted as an `Except` outcome; a missing
`GOOGLE_AI_API_KEY` or any thrown error (network fault, unparsable output)
yields the empty record `{}` instead of propagating. -/
def extractResumeDataAI (apiKey : Option Str) (llmOutcome : Except Unit AiRawData) :
    ParsedResumeData :=
  match apiKey with
  | none => {}
  | some _ =>
    match llmOutcome with
    | Except.error _ => {}
    | Except.ok parsed => mapAiResponse parsed

/-- C1: the hybrid orchestrator computes `sR = score(R, text)` and keeps the
rule-based record `R` whenever `sR ≥ 55`; otherwise it scores the LLM
record `A` without the raw text (`sA = score(A)`) and returns `A` exactly
when `sA > sR`, returning `R` in every other case. -/
theorem hybrid_selection (r a : ParsedResumeData) (text : Str) :
    (55 ≤ scoreParseConfidence r (some text) →
      extractResumeDataHybridSelect r a text = r) ∧
    (scoreParseConfidence r (some text) < 55 →
      extractResumeDataHybridSelect r a text =
        (if scoreParseConfidence a none > scoreParseConfidence r (some text) then a
         else r)) := by
  constructor
  · intro h
    rw [extractResumeDataHybridSelect, if_pos h]
  · intro h
    rw [extractResumeDataHybridSelect, if_neg (by omega)]

/-- A rule-based record that scores at least 55 on its own (one complete
experience entry and one complete education entry). -/
def sampleGoodRecord : ParsedResumeData where
  experience := some [{ position := some (str "Staff Nurse"),
                        employer := some (str "Mercy Hospital"),
                        start_date := some (str "June 2020") }]
  education := some [{ degree := some (str "Bachelor of Science in Nursing"),
                       institution := some (str "University of the Philippines") }]

/-- A record carrying only one certification (scores 10). -/
def sampleCertRecord : ParsedResumeData where
  certifications := some [{ type := str "BLS" }]

/-- Witness for C1: with a high-confidence rule result the rule record is
kept; with an empty rule result the higher-scoring AI record wins. -/
theorem hybrid_selection_witness :
    extractResumeDataHybridSelect sampleGoodRecord sampleCertRecord (str "resume") =
      sampleGoodRecord ∧
    extractResumeDataHybridSelect {} sampleCertRecord (str "resume") = sampleCertRecord := by
  constructor
  · exact (hybrid_selection sampleGoodRecord sampleCertRecord (str "resume")).1 (by decide)
  · exact Eq.trans
      ((hybrid_selection {} sampleCertRecord (str "resume")).2 (by decide)) (by decide)

/-- C8: a failing LLM adapter returns the empty record rather than raising
(no API key, or a thrown network/parse error), and whenever the rule-based
score is below 55 and the adapter produced the empty record, the hybrid
selection returns the rule-based record unchanged. -/
theorem llm_failure_keeps_rule_result :
    (∀ llmOutcome : Except Unit AiRawData,
      extractResumeDataAI none llmOutcome = {}) ∧
    (∀ (apiKey : Option Str) (e : Unit),
      extractResumeDataAI apiKey (Except.error e) = {}) ∧
    (∀ (r : ParsedResumeData) (text : Str),
      scoreParseConfidence r (some text) < 55 →
      extractResumeDataHybridSelect r {} text = r) := by
  refine ⟨fun _ => rfl, ?_, ?_⟩
  · intro apiKey e
    cases apiKey <;> rfl
  · intro r text h
    have h0 : scoreParseConfidence ({} : ParsedResumeData) none = 0 := by decide
    have hnn := scoreParseConfidence_nonneg r (some text)
    rw [extractResumeDataHybridSelect, if_neg (by omega), if_neg (by omega)]

/-- Witness for C8: concrete adapter failures give `{}`, and the rule
record survives the low-confidence fall-through. -/
theorem llm_failure_keeps_rule_result_witness :
    extractResumeDataAI none (Except.ok {}) = {} ∧
    extractResumeDataAI (some (str "key")) (Except.error ()) = {} ∧
    extractResumeDataHybridSelect sampleCertRecord {} (str "resume") = sampleCertRecord :=
  ⟨llm_failure_keeps_rule_result.1 (Except.ok {}),
   llm_failure_keeps_rule_result.2.1 (some (str "key")) (),
   llm_failure_keeps_rule_result.2.2 sampleCertRecord (str "resume") (by decide)⟩

/-! ### Persistence row builders of `uploadResume` -/

/-- The subordinating-word alternation of the persistence-time sentence
filter (`\b`-bounded). -/
def uploadSentenceWords : List Str :=
  [str "that", str "which", str "are", str "was", str "were", str "has", str "had",
   str "have", str "been", str "being", str "is"]

/-- The `looksLikeSentence` test of `uploadResume`: more than 8
whitespace-separated tokens, or subordinating words with more than 5
tokens, or a trailing `.`/`!`. -/
def looksLikeSentence (text : Str) : Bool :=
  decide ((splitWs text).length > 8) ||
  (searchWordBounded uploadSentenceWords none text && decide ((splitWs text).length > 5)) ||
  endsPeriodBang text

def validTypes : List Str :=
  [str "employment", str "clinical_placement", str "ojt", str "volunteer"]

/-- A `nurse_experience` row as built by `uploadResume`. -/
structure ExperienceRow where
  nurse_id : Str
  employer : Option Str
  position : Option Str
  type : Str
  department : Option Str
  description : Option Str
  location : Option Str
  start_date : Str
  end_date : Option Str
deriving Repr, DecidableEq

/-- The per-entry mapping of `uploadResume` for experience rows:
`type` is forced into the valid set, dates go through `toDateString` with
the `1900-01-01` start sentinel, and `Present`/`Current` ends become
`null`. -/
def mkExperienceRow (nurseId : Str) (e : ExperienceEntry) : ExperienceRow where
  nurse_id := nurseId
  employer := e.employer
  position := e.position
  type :=
    if validTypes.contains (e.type.getD []) then e.type.getD [] else str "employment"
  department := jsOrNone e.department
  description := jsOrNone e.description
  location := jsOrNone e.location
  start_date := (toDateString (e.start_date.getD [])).getD (str "1900-01-01")
  end_date :=
    match e.end_date with
    | none => none
    | some ed =>
      if ed.isEmpty || containsAnyCI [str "present", str "current"] ed then none
      else toDateString ed

/-- Embeds the experience-row construction of `uploadResume`: entries
missing employer or position, or whose employer looks like a sentence, are
filtered out before mapping. -/
def expRecordsOf (nurseId : Str) (exps : List ExperienceEntry) : List ExperienceRow :=
  (exps.filter (fun e =>
    truthy e.employer && truthy e.position && !looksLikeSentence (e.employer.getD []))).map
    (mkExperienceRow nurseId)

/-- C9: every experience row persisted by `uploadResume` carries a
non-empty employer and a non-empty position, and entries lacking either
field are dropped silently: pre-filtering them away changes nothing. -/
theorem uploadResume_experience_rows (nurseId : Str) (exps : List ExperienceEntry) :
    (∀ row ∈ expRecordsOf nurseId exps,
      truthy row.employer = true ∧ truthy row.position = true) ∧
    expRecordsOf nurseId exps =
      expRecordsOf nurseId (exps.filter (fun e => truthy e.employer && truthy e.position)) := by
  constructor
  · intro row hrow
    rw [expRecordsOf] at hrow
    obtain ⟨e, he, rfl⟩ := List.mem_map.mp hrow
    have hf := List.of_mem_filter he
    simp only [Bool.and_eq_true] at hf
    exact ⟨hf.1.1, hf.1.2⟩
  · rw [expRecordsOf, expRecordsOf, List.filter_filter]
    refine congrArg _ (List.filter_congr ?_)
    intro e _
    cases h1 : truthy e.employer <;> cases h2 : truthy e.position <;>
      cases h3 : looksLikeSentence (e.employer.getD []) <;> rfl

/-- Witness for C9 at one persisted concrete row. -/
theorem uploadResume_experience_rows_witness :
    truthy (mkExperienceRow (str "n1")
      { employer := some (str "Mercy Hospital"), position := some (str "Staff Nurse"),
        start_date := some (str "June 2020") }).employer = true ∧
    truthy (mkExperienceRow (str "n1")
      { employer := some (str "Mercy Hospital"), position := some (str "Staff Nurse"),
        start_date := some (str "June 2020") }).position = true :=
  (uploadResume_experience_rows (str "n1")
      [{ employer := some (str "Mercy Hospital"), position := some (str "Staff Nurse"),
         start_date := some (str "June 2020") },
       { start_date := some (str "January 2009") }]).1
    (mkExperienceRow (str "n1")
      { employer := some (str "Mercy Hospital"), position := some (str "Staff Nurse"),
        start_date := some (str "June 2020") })
    (by decide)

/-- A `nurse_education` row as built by `uploadResume`. -/
structure EducationRow where
  nurse_id : Str
  institution : Str
  degree : Str
  field_of_study : Option Str
  graduation_year : Option Int
  institution_location : Option Str
  start_date : Option Str
  end_date : Option Str
  status : Option Str
deriving Repr, DecidableEq

/-- The per-entry mapping of `uploadResume` for education rows (`year` is
numeric in the typed record, so the string fallback branch of the source is
vacuous; `0` is falsy and becomes `null`). -/
def mkEducationRow (nurseId : Str) (e : EducationEntry) : EducationRow where
  nurse_id := nurseId
  institution := if truthy e.institution then e.institution.getD [] else str "Unknown"
  degree :=
    if truthy e.degree then e.degree.getD [] else str "Bachelor of Science in Nursing"
  field_of_study := jsOrNone e.field_of_study
  graduation_year := if numTruthy e.year then e.year else none
  institution_location := jsOrNone e.institution_location
  start_date := if truthy e.start_date then toDateString (e.start_date.getD []) else none
  end_date := if truthy e.end_date then toDateString (e.end_date.getD []) else none
  status := jsOrNone e.status

/-- Embeds the education-row construction of `uploadResume`: only entries
with a degree or an institution are kept. -/
def eduRecordsOf (nurseId : Str) (edus : List EducationEntry) : List EducationRow :=
  (edus.filter (fun e => truthy e.degree || truthy e.institution)).map
    (mkEducationRow nurseId)

theorem truthy_ne_nil {o : Option Str} (h : truthy o = true) : o.getD [] ≠ [] := by
  cases o with
  | none => simp [truthy] at h
  | some s =>
    simp only [truthy, Bool.not_eq_true'] at h
    simpa [List.isEmpty_iff] using h

/-- C10: `uploadResume` inserts an education row only for entries with a
degree or an institution; every inserted row has a non-empty institution
and degree, the literals `Unknown` and `Bachelor of Science in Nursing`
standing in for missing fields. -/
theorem uploadResume_education_rows (nurseId : Str) (edus : List EducationEntry) :
    (∀ row ∈ eduRecordsOf nurseId edus,
      row.institution ≠ [] ∧ row.degree ≠ [] ∧
      ∃ e ∈ edus, (truthy e.degree || truthy e.institution) = true ∧
        row = mkEducationRow nurseId e ∧
        row.institution =
          (if truthy e.institution then e.institution.getD [] else str "Unknown") ∧
        row.degree =
          (if truthy e.degree then e.degree.getD []
           else str "Bachelor of Science in Nursing")) ∧
    eduRecordsOf nurseId
      (edus.filter (fun e => !(truthy e.degree || truthy e.institution))) = [] := by
  constructor
  · intro row hrow
    rw [eduRecordsOf] at hrow
    obtain ⟨e, he, rfl⟩ := List.mem_map.mp hrow
    have hf := List.of_mem_filter he
    have hmem := List.mem_of_mem_filter he
    refine ⟨?_, ?_, e, hmem, hf, rfl, rfl, rfl⟩
    · show (if truthy e.institution then e.institution.getD [] else str "Unknown") ≠ []
      by_cases hi : truthy e.institution = true
      · rw [if_pos hi]; exact truthy_ne_nil hi
      · rw [if_neg hi]; decide
    · show (if truthy e.degree then e.degree.getD []
        else str "Bachelor of Science in Nursing") ≠ []
      by_cases hd : truthy e.degree = true
      · rw [if_pos hd]; exact truthy_ne_nil hd
      · rw [if_neg hd]; decide
  · rw [eduRecordsOf, List.filter_filter]
    have : (edus.filter (fun e =>
        (truthy e.degree || truthy e.institution) && !(truthy e.degree || truthy e.institution))) = [] := by
      refine List.filter_eq_nil_iff.mpr ?_
      intro e _
      cases truthy e.degree <;> cases truthy e.institution <;> decide
    rw [this]
    rfl

/-- Witness for C10 at one persisted concrete row (an entry with a degree
and no institution, whose row carries the `Unknown` default). -/
theorem uploadResume_education_rows_witness :
    (mkEducationRow (str "n1") { degree := some (str "BSN") }).institution ≠ [] ∧
    (mkEducationRow (str "n1") { degree := some (str "BSN") }).degree ≠ [] ∧
    ∃ e ∈ [({ degree := some (str "BSN") } : EducationEntry),
           { institution := some (str "UP Manila") }, {}],
      (truthy e.degree || truthy e.institution) = true ∧
      mkEducationRow (str "n1") { degree := some (str "BSN") } = mkEducationRow (str "n1") e ∧
      (mkEducationRow (str "n1") { degree := some (str "BSN") }).institution =
        (if truthy e.institution then e.institution.getD [] else str "Unknown") ∧
      (mkEducationRow (str "n1") { degree := some (str "BSN") }).degree =
        (if truthy e.degree then e.degree.getD []
         else str "Bachelor of Science in Nursing") :=
  (uploadResume_education_rows (str "n1")
      [{ degree := some (str "BSN") }, { institution := some (str "UP Manila") }, {}]).1
    (mkEducationRow (str "n1") { degree := some (str "BSN") })
    (by decide)

/-! ### Rule-based experience extractor: string and shape helpers -/

/-- Case-sensitive literal prefix match. -/
def stripCS : Str → Str → Option Str
  | [], s => some s
  | _ :: _, [] => none
  | p :: ps, c :: cs => if p = c then stripCS ps cs else none

/-- Case-sensitive substring test (`String.prototype.includes`). -/
def containsStr (pat : Str) : Str → Bool
  | [] => (stripCS pat []).isSome
  | c :: cs => (stripCS pat (c :: cs)).isSome || containsStr pat cs

/-- `String.prototype.split(sep)` for a single character class. -/
def splitOnAny (seps : List Char) : Str → List Str
  | [] => [[]]
  | c :: cs =>
    let r := splitOnAny seps cs
    if seps.contains c then [] :: r
    else (c :: r.headD []) :: r.tail

def splitOnChar (sep : Char) : Str → List Str := splitOnAny [sep]

def upperAZ (c : Char) : Bool := 'A' ≤ c && c ≤ 'Z'
def lowerAZ (c : Char) : Bool := 'a' ≤ c && c ≤ 'z'

/-- `^[A-Z\s&]{4,}$`. -/
def headerShape4 (s : Str) : Bool :=
  decide (s.length ≥ 4) && s.all (fun c => upperAZ c || jsSpace c || c == '&')

/-- `^[A-Z][A-Z\s&]{3,}$`. -/
def headerShape1_3 (s : Str) : Bool :=
  match s with
  | c :: rest =>
    upperAZ c && decide (rest.length ≥ 3) && rest.all (fun d => upperAZ d || jsSpace d || d == '&')
  | [] => false

/-- `^[A-Z][A-Z\s]+$`. -/
def allCaps2Shape (s : Str) : Bool :=
  match s with
  | c :: rest =>
    upperAZ c && decide (rest.length ≥ 1) && rest.all (fun d => upperAZ d || jsSpace d)
  | [] => false

/-- `^[A-Z][A-Z\s]{10,}$`. -/
def allCapsHeader10 (s : Str) : Bool :=
  match s with
  | c :: rest =>
    upperAZ c && decide (rest.length ≥ 10) && rest.all (fun d => upperAZ d || jsSpace d)
  | [] => false

/-- `^[\d\s\-•\*]+$`. -/
def numsBulletsShape (s : Str) : Bool :=
  decide (s.length ≥ 1) &&
  s.all (fun c => c.isDigit || jsSpace c || c == '-' || c == '•' || c == '*')

/-- `^-+\s*\d+` (prefix match). -/
def pageNumShape (s : Str) : Bool :=
  let r1 := s.dropWhile (fun c => c == '-')
  decide (r1.length < s.length) &&
  (match r1.dropWhile jsSpace with
   | c :: _ => c.isDigit
   | [] => false)

/-- `^[A-Z][a-z]` (prefix match). -/
def capLowerShape (s : Str) : Bool :=
  match s with
  | a :: b :: _ => upperAZ a && lowerAZ b
  | _ => false

def wordSpace (c : Char) : Bool := wordChar c || jsSpace c

/-- A location-shape part after a comma: `\s+[\w\s]+`. -/
def locPartShape (p : Str) : Bool :=
  match p with
  | c :: rest => jsSpace c && decide (rest.length ≥ 1) && rest.all wordSpace
  | [] => false

/-- `^[\w\s]+,\s+[\w\s]+(?:,\s+[\w\s]+)?$`. -/
def locShape3 (s : Str) : Bool :=
  let parts := splitOnChar ',' s
  (decide (parts.length = 2) || decide (parts.length = 3)) &&
  (match parts with
   | p1 :: rest =>
     decide (p1.length ≥ 1) && p1.all wordSpace && rest.all locPartShape
   | [] => false)

/-- `^[\w\s]+,\s+[\w\s]+$`. -/
def locShape2 (s : Str) : Bool :=
  let parts := splitOnChar ',' s
  decide (parts.length = 2) &&
  (match parts with
   | p1 :: rest =>
     decide (p1.length ≥ 1) && p1.all wordSpace && rest.all locPartShape
   | [] => false)

/-- `^[\w\s.-]+,\s+[\w\s]+(?:,\s+[\w\s]+)?$` (the standalone-location test of
the description loop). -/
def descLocShape (s : Str) : Bool :=
  let parts := splitOnChar ',' s
  (decide (parts.length = 2) || decide (parts.length = 3)) &&
  (match parts with
   | p1 :: rest =>
     decide (p1.length ≥ 1) &&
     p1.all (fun c => wordChar c || jsSpace c || c == '.' || c == '-') &&
     rest.all locPartShape
   | [] => false)

/-- `^(?:Mr\.|Mrs\.|Ms\.|Dr\.)\s+[\w\s]+$` (case-sensitive). -/
def personNameShape (s : Str) : Bool :=
  match (stripCS (str "Mr.") s <|> stripCS (str "Mrs.") s <|>
         stripCS (str "Ms.") s <|> stripCS (str "Dr.") s) with
  | some rest => locPartShape rest
  | none => false

/-- `^[A-Z][\w\s&,'.-]{2,}$` (the capitalised-name shape of the employer
fallback). -/
def capNameShape (s : Str) : Bool :=
  match s with
  | c :: rest =>
    upperAZ c && decide (rest.length ≥ 2) &&
    rest.all (fun d => wordChar d || jsSpace d || d == '&' || d == ',' ||
      d == '\'' || d == '.' || d == '-')
  | [] => false

/-- `^-+\s*\d+\s*(of|\/)\s*\d+\s*-+$` (page separators such as
`-- 1 of 2 --`). -/
def pageSeparatorShape (s : Str) : Bool :=
  let r1 := s.dropWhile (fun c => c == '-')
  if decide (r1.length < s.length) then
    let r2 := r1.dropWhile jsSpace
    let r3 := r2.dropWhile Char.isDigit
    if decide (r3.length < r2.length) then
      let r4 := r3.dropWhile jsSpace
      match (stripCS (str "of") r4 <|> stripCS (str "/") r4) with
      | some r5 =>
        let r6 := r5.dropWhile jsSpace
        let r7 := r6.dropWhile Char.isDigit
        if decide (r7.length < r6.length) then
          let r8 := r7.dropWhile jsSpace
          decide (r8.length ≥ 1) && r8.all (fun c => c == '-')
        else false
      | none => false
    else false
  else false

/-- `^\d+[.)]\s` (numbered list markers). -/
def numberedStart (s : Str) : Bool :=
  let r1 := s.dropWhile Char.isDigit
  decide (r1.length < s.length) &&
  (match r1 with
   | c :: d :: _ => (c == '.' || c == ')') && jsSpace d
   | _ => false)

/-- The bullet-glyph class of the anchor guard and the before-window
employer skip (`^[•\-\*▪●◦■▸►‣⁃]`; the seventh glyph is the black square
U+25A0). -/
def bulletGlyph11 (c : Char) : Bool :=
  c == '•' || c == '-' || c == '*' || c == '▪' || c == '●' || c == '◦' ||
  c == '■' || c == '▸' || c == '►' || c == '‣' || c == '⁃'

/-- The bullet-glyph class of the after-window employer break and the
department scan (`^[•\-\*▪●◦■]`; the seventh glyph is the black square
U+25A0). -/
def bulletGlyph7 (c : Char) : Bool :=
  c == '•' || c == '-' || c == '*' || c == '▪' || c == '●' || c == '◦' || c == '■'

/-- The bullet-glyph class of the description loop, the after-window
position break and the location checks (`^[•\-\*▪●◦]`). -/
def bulletGlyph6 (c : Char) : Bool :=
  c == '•' || c == '-' || c == '*' || c == '▪' || c == '●' || c == '◦'

def startsWith6 (s : Str) : Bool :=
  match s with
  | c :: _ => bulletGlyph6 c
  | [] => false

def startsWith7 (s : Str) : Bool :=
  match s with
  | c :: _ => bulletGlyph7 c
  | [] => false

/-! ### The experience date-range pattern -/

/-- The dash class `[-–—‐‑‒−]` of the date separator. -/
def dashChar (c : Char) : Bool :=
  c == '-' || c == '–' || c == '—' || c == '‐' ||
  c == '‑' || c == '‒' || c == '−'

/-- The `\s*[,.]?\s*` glue after a day number. -/
def eatWsCommaWs (s : Str) : Str :=
  let s1 := s.dropWhile jsSpace
  let s2 := if s1.head? = some ',' ∨ s1.head? = some '.' then s1.tail else s1
  s2.dropWhile jsSpace

/-- A date-range match: group 1/2 are the start month/year, group 3/4 the
end month/year (both absent for `Present`/`Current`), `len` the length of
the whole match. -/
structure DRMatch where
  g1 : Option Str
  g2 : Str
  g3 : Option Str
  g4 : Option Str
  len : Nat
deriving Repr, DecidableEq

/-- The end alternation
`(?:(?:(MONTH)\s*\.?\s*(?:\d{1,2}\s*[,.]?\s*)?)?(\d{4})|Present|Current)`:
month-led (longest day first), then bare year, then `Present`, then
`Current`.  Returns (group 3, group 4, rest). -/
def endAttempt (s : Str) : Option (Option Str × Option Str × Str) :=
  match monthAltsFull.findSome? (fun alt =>
      (stripCI alt s).bind (fun r =>
        let r0 := eatWsDotWs r
        ((match r0 with
          | d1 :: d2 :: rest =>
            if d1.isDigit && d2.isDigit then year4 (eatWsCommaWs rest) else none
          | _ => none) <|>
         (match r0 with
          | d1 :: rest => if d1.isDigit then year4 (eatWsCommaWs rest) else none
          | _ => none) <|>
         year4 r0).map (fun yr => (s.take alt.length, yr.1, yr.2)))) with
  | some (m, y, r) => some (some m, some y, r)
  | none =>
    match year4 s with
    | some (y, r) => some (none, some y, r)
    | none =>
      match stripCI (str "Present") s with
      | some r => some (none, none, r)
      | none =>
        match stripCI (str "Current") s with
        | some r => some (none, none, r)
        | none => none

/-- The separator `\s*(?:[-–—‐‑‒−]+|\bto\b)` after the start year (the
character before `to` must be a non-word character, hence a consumed
space, since a year digit precedes otherwise). -/
def sepAfterYear (r0 : Str) : Option Str :=
  let r1 := r0.dropWhile jsSpace
  let hadSpace := decide (r1.length < r0.length)
  if (match r1 with | c :: _ => dashChar c | [] => false) then
    some (r1.dropWhile dashChar)
  else
    match stripCI (str "to") r1 with
    | some r2 => if hadSpace && afterBoundaryOk r2 then some r2 else none
    | none => none

/-- Completes a date-range match after the start groups: separator, `\s*`,
then the end alternation. -/
def finishRange (s : Str) (g1 : Option Str) (g2 : Str) (r1 : Str) : Option DRMatch :=
  (sepAfterYear r1).bind (fun r2 =>
    (endAttempt (r2.dropWhile jsSpace)).map (fun e =>
      ⟨g1, g2, e.1, e.2.1, s.length - e.2.2.length⟩))

/-- One attempt of the full date-range pattern at the current position,
with the backtracking order of the JavaScript engine: each month
alternative with two-digit, one-digit and absent day, then the bare start
year; every start parse is continued through separator and end before the
next start parse is tried. -/
def dateRangeHere (s : Str) : Option DRMatch :=
  match monthAltsFull.findSome? (fun alt =>
      (stripCI alt s).bind (fun r =>
        let r0 := eatWsDotWs r
        let g1 := s.take alt.length
        (match r0 with
         | d1 :: d2 :: rest =>
           if d1.isDigit && d2.isDigit then
             (year4 (eatWsCommaWs rest)).bind (fun yr => finishRange s (some g1) yr.1 yr.2)
           else none
         | _ => none) <|>
        (match r0 with
         | d1 :: rest =>
           if d1.isDigit then
             (year4 (eatWsCommaWs rest)).bind (fun yr => finishRange s (some g1) yr.1 yr.2)
           else none
         | _ => none) <|>
        ((year4 r0).bind (fun yr => finishRange s (some g1) yr.1 yr.2)))) with
  | some m => some m
  | none => (year4 s).bind (fun yr => finishRange s none yr.1 yr.2)

/-- `dateRangePattern.exec`: leftmost match with its index. -/
def dateRangeSearch : Str → Option (Nat × DRMatch)
  | [] => none
  | c :: cs =>
    match dateRangeHere (c :: cs) with
    | some m => some (0, m)
    | none => (dateRangeSearch cs).map (fun im => (im.1 + 1, im.2))

/-- `dateRangePattern.test`. -/
def dateRangeTest (s : Str) : Bool := (dateRangeSearch s).isSome

example : dateRangeSearch (str "July 2009 - Jan 2010 Quezon City General Hospital") =
    some (0, ⟨some (str "July"), str "2009", some (str "Jan"), str "2010", 20⟩) := by decide
example : dateRangeSearch (str "Jan 2020 - Present") =
    some (0, ⟨some (str "Jan"), str "2020", none, none, 18⟩) := by decide
example : dateRangeSearch (str "2016 - 2018") =
    some (0, ⟨none, str "2016", none, str "2018", 11⟩) := by decide
example : dateRangeSearch (str "Sept. 1, 2010 to Feb. 7, 2011") =
    some (0, ⟨some (str "Sept"), str "2010", some (str "Feb"), str "2011", 29⟩) := by decide
example : dateRangeSearch (str "1st Semester 2004-2005") =
    some (13, ⟨none, str "2004", none, str "2005", 9⟩) := by decide
example : dateRangeSearch (str "no dates here") = none := by decide
example : dateRangeTest (str "March 2023 - October 2023") = true := by decide

/-! ### Anchor guards -/

/-- One attempt of `\b(?:1st|2nd|3rd|4th)\s+Semester\b`. -/
def semesterHere (prev : Option Char) (s : Str) : Bool :=
  wordBoundaryOk prev &&
  (match (stripCI (str "1st") s <|> stripCI (str "2nd") s <|>
          stripCI (str "3rd") s <|> stripCI (str "4th") s) with
   | some r1 =>
     let r2 := r1.dropWhile jsSpace
     decide (r2.length < r1.length) &&
     (match stripCI (str "Semester") r2 with
      | some r3 => afterBoundaryOk r3
      | none => false)
   | none => false)

def semesterSearch : Option Char → Str → Bool
  | prev, [] => semesterHere prev []
  | prev, c :: cs => semesterHere prev (c :: cs) || semesterSearch (some c) cs

/-- The academic-term guard `/\b(?:1st|2nd|3rd|4th)\s+Semester\b/i`. -/
def semesterGuard (line : Str) : Bool := semesterSearch none line

/-- `.+"` after an opening quote: one or more non-line-break characters
then a closing quote. -/
def quoteClose : Str → Bool
  | [] => false
  | c :: cs => dotChar c && (cs.head? = some '"' || quoteClose cs)

/-- The seminar/training guard
`/^\w+\s+\d{1,2}[,-]\s*\d{1,2},?\s+\d{4}\s+".+"/` (anchored). -/
def seminarGuard (line : Str) : Bool :=
  match line with
  | [] => false
  | c0 :: _ =>
    if ¬ wordChar c0 = true then false
    else
      let r1 := line.dropWhile wordChar
      let r2 := r1.dropWhile jsSpace
      if ¬ r2.length < r1.length then false
      else
        let d1 := (r2.takeWhile Char.isDigit).length
        let r3 := r2.dropWhile Char.isDigit
        if ¬ (d1 = 1 ∨ d1 = 2) then false
        else
          match r3 with
          | [] => false
          | c :: r4 =>
            if ¬ (c = ',' ∨ c = '-') then false
            else
              let r5 := r4.dropWhile jsSpace
              let d2 := (r5.takeWhile Char.isDigit).length
              let r6 := r5.dropWhile Char.isDigit
              if ¬ (d2 = 1 ∨ d2 = 2) then false
              else
                let r7 := if r6.head? = some ',' then r6.tail else r6
                let r8 := r7.dropWhile jsSpace
                if ¬ r8.length < r7.length then false
                else
                  let d3 := (r8.takeWhile Char.isDigit).length
                  let r9 := r8.dropWhile Char.isDigit
                  if ¬ d3 = 4 then false
                  else
                    let r10 := r9.dropWhile jsSpace
                    if ¬ r10.length < r9.length then false
                    else
                      match r10 with
                      | '"' :: r11 => quoteClose r11
                      | _ => false

/-- The bullet-line guard `/^[•\-\*▪●◦▶▸►‣⁃]/.test(line.trim())`. -/
def bulletGuard (line : Str) : Bool :=
  match trimStr line with
  | c :: _ => bulletGlyph11 c
  | [] => false

example : semesterGuard (str "1st Semester 2004-2005") = true := by decide
example : semesterGuard (str "21st Semester") = false := by decide
example : seminarGuard (str "March 15-16, 2018 \x22Advanced Wound Care Workshop\x22") = true := by decide
example : seminarGuard (str "March 15, 2018 \x22Advanced Wound Care Workshop\x22") = false := by decide
example : bulletGuard (str "  - 2019-2020 top 10 of class") = true := by decide
example : bulletGuard (str "■ 2019-2020 top 10 of class") = true := by decide
example : bulletGuard (str "▶ 2019-2020") = false := by decide

/-! ### Keyword tables of the experience extractor -/

/-- Position keywords of the same-line (pre-date) check. -/
def posKwSameLine : List Str :=
  [str "Manager", str "Director", str "Engineer", str "Developer", str "Analyst",
   str "Specialist", str "Coordinator", str "Assistant", str "Lead", str "Senior",
   str "Junior", str "Consultant", str "Officer", str "Administrator", str "Executive",
   str "Supervisor", str "Head", str "Chief", str "Technician", str "Nurse", str "RN",
   str "Staff", str "Clerk"]

/-- Position keywords of the before-window candidate collection. -/
def posKwBefore : List Str :=
  [str "Manager", str "Director", str "Engineer", str "Developer", str "Analyst",
   str "Specialist", str "Coordinator", str "Assistant", str "Lead", str "Senior",
   str "Junior", str "Consultant", str "Officer", str "Administrator", str "Executive",
   str "Supervisor", str "Head", str "Chief", str "Technician", str "Translator",
   str "Owner", str "Crew", str "Nurse", str "RN", str "Staff", str "Clerk", str "Admin",
   str "Sorting", str "Control", str "Treatment", str "Process", str "Testing",
   str "Trainee", str "Intern", str "Volunteer", str "Instructor", str "Duty"]

/-- Position keywords of the after-window candidate collection (no `Duty`). -/
def posKwAfter : List Str :=
  [str "Manager", str "Director", str "Engineer", str "Developer", str "Analyst",
   str "Specialist", str "Coordinator", str "Assistant", str "Lead", str "Senior",
   str "Junior", str "Consultant", str "Officer", str "Administrator", str "Executive",
   str "Supervisor", str "Head", str "Chief", str "Technician", str "Translator",
   str "Owner", str "Crew", str "Nurse", str "RN", str "Staff", str "Clerk", str "Admin",
   str "Sorting", str "Control", str "Treatment", str "Process", str "Testing",
   str "Trainee", str "Intern", str "Volunteer", str "Instructor"]

/-- Position keywords of the `Position | Location` pipe checks. -/
def posKwPipe : List Str :=
  [str "Manager", str "Director", str "Engineer", str "Developer", str "Analyst",
   str "Specialist", str "Coordinator", str "Assistant", str "Lead", str "Senior",
   str "Junior", str "Consultant", str "Officer", str "Administrator", str "Executive",
   str "Supervisor", str "Head", str "Chief", str "Technician", str "Translator",
   str "Owner", str "Crew", str "Nurse", str "RN", str "Staff", str "Clerk", str "Admin"]

/-- Position keywords of the pipe check in the unknown-position fallback
(the source repeats `Supervisor`; membership is unaffected). -/
def posKwPipeFallback : List Str :=
  [str "Manager", str "Director", str "Engineer", str "Developer", str "Analyst",
   str "Specialist", str "Coordinator", str "Assistant", str "Lead", str "Senior",
   str "Junior", str "Consultant", str "Officer", str "Administrator", str "Executive",
   str "Supervisor", str "Head", str "Chief", str "Technician", str "Translator",
   str "Owner", str "Crew", str "Nurse", str "RN", str "Staff", str "Clerk", str "Admin",
   str "Supervisor", str "Sorting", str "Control"]

/-- Position keywords of the keyword branch in the unknown-position
fallback. -/
def posKwFallback : List Str :=
  [str "Manager", str "Director", str "Engineer", str "Developer", str "Analyst",
   str "Specialist", str "Coordinator", str "Assistant", str "Lead", str "Senior",
   str "Junior", str "Consultant", str "Officer", str "Administrator", str "Executive",
   str "Supervisor", str "Head", str "Chief", str "Technician", str "Translator",
   str "Owner", str "Crew", str "Nurse", str "RN", str "Staff", str "Clerk", str "Admin",
   str "Sorting", str "Control", str "Treatment", str "Process", str "Testing"]

/-- Position keywords penalised by the employer scorer. -/
def posKwEmployerPenalty : List Str :=
  [str "Manager", str "Director", str "Engineer", str "Developer", str "Analyst",
   str "Specialist", str "Coordinator", str "Assistant", str "Technician",
   str "Supervisor"]

/-- `\b(?:Inc|LLC|Ltd|Corp|Corporation|Company)\b` of the position scorer
and the fallback company exclusion. -/
def companyKwShort : List Str :=
  [str "Inc", str "LLC", str "Ltd", str "Corp", str "Corporation", str "Company"]

/-- The company-keyword alternation of the before-window employer
candidates (`...|Department|Center|Foods|Energy`). -/
def companyKwBefore : List Str :=
  [str "Inc", str "LLC", str "Ltd", str "Corp", str "Corporation", str "Company",
   str "Co.", str "Group", str "Technologies", str "Solutions", str "Services",
   str "Hospital", str "Medical", str "University", str "College", str "Institute",
   str "Agency", str "Organization", str "Foundation", str "Association",
   str "Department", str "Center", str "Foods", str "Energy"]

/-- The company-keyword alternation of the after-window employer search
(`...|Department|Center|Health|System|Clinic`). -/
def companyKwAfter : List Str :=
  [str "Inc", str "LLC", str "Ltd", str "Corp", str "Corporation", str "Company",
   str "Co.", str "Group", str "Technologies", str "Solutions", str "Services",
   str "Hospital", str "Medical", str "University", str "College", str "Institute",
   str "Agency", str "Organization", str "Foundation", str "Association",
   str "Department", str "Center", str "Health", str "System", str "Clinic"]

/-- The strong company keywords of the `Position – Employer` dash check. -/
def companyKwDash : List Str :=
  [str "Inc", str "LLC", str "Ltd", str "Corp", str "Corporation", str "Company",
   str "Co.", str "Group", str "Hospital", str "Medical Center", str "Medical Group",
   str "Health System", str "University", str "College", str "Institute",
   str "Foundation", str "Association"]

/-- The company-keyword alternation of the employer fallback
(`...|Department|Center|Foods`). -/
def companyKwFallback : List Str :=
  [str "Inc", str "LLC", str "Ltd", str "Corp", str "Corporation", str "Company",
   str "Co.", str "Group", str "Technologies", str "Solutions", str "Services",
   str "Hospital", str "Medical", str "University", str "College", str "Institute",
   str "Agency", str "Organization", str "Foundation", str "Association",
   str "Department", str "Center", str "Foods"]

/-- The subordinating-word alternation of the employer-fallback sentence
test. -/
def sentenceWordsFallback : List Str :=
  [str "that", str "which", str "with", str "from", str "this", str "the", str "and",
   str "for", str "are", str "was", str "were", str "has", str "had", str "have",
   str "been", str "being", str "will", str "shall", str "may", str "can", str "could",
   str "would", str "should", str "must", str "is", str "am", str "not"]

/-- The subordinating-word alternation of the employer scorer. -/
def sentenceWordsScore : List Str :=
  [str "that", str "which", str "with", str "from", str "this", str "the", str "are",
   str "was", str "were", str "has", str "had", str "have", str "been", str "being",
   str "is"]

/-- `KNOWN_HOSPITALS` (Philippine and major US facilities). -/
def KNOWN_HOSPITALS : List Str :=
  [str "St. Luke's Medical Center",
   str "St. Luke's",
   str "Makati Medical Center",
   str "The Medical City",
   str "Philippine General Hospital",
   str "PGH",
   str "Philippine Heart Center",
   str "National Kidney Institute",
   str "Veterans Memorial Medical Center",
   str "East Avenue Medical Center",
   str "Quezon City General Hospital",
   str "Manila Doctors Hospital",
   str "Asian Hospital",
   str "Cardinal Santos Medical Center",
   str "Chong Hua Hospital",
   str "Cebu Doctors",
   str "Cebu Doctors' University Hospital",
   str "Vicente Sotto Memorial Medical Center",
   str "Davao Doctors Hospital",
   str "Southern Philippines Medical Center",
   str "Baguio General Hospital",
   str "Jose B. Lingad Memorial",
   str "Ospital ng Maynila",
   str "UP-PGH",
   str "UST Hospital",
   str "FEU-NRMF Medical Center",
   str "Memorial Hermann Hospital",
   str "Memorial Hermann",
   str "Houston Methodist Hospital",
   str "Houston Methodist",
   str "St. Luke's Health System",
   str "Cedars-Sinai Medical Center",
   str "Cedars-Sinai",
   str "UCLA Medical Center",
   str "Kaiser Permanente",
   str "Mayo Clinic",
   str "Cleveland Clinic",
   str "Johns Hopkins Hospital",
   str "Massachusetts General Hospital",
   str "Mount Sinai Hospital",
   str "NewYork-Presbyterian Hospital",
   str "Stanford Health Care",
   str "UCSF Medical Center",
   str "Duke University Hospital",
   str "Northwestern Memorial Hospital",
   str "Brigham and Women's Hospital",
   str "NYU Langone",
   str "Emory University Hospital",
   str "Vanderbilt University Medical Center",
   str "Rush University Medical Center",
   str "Barnes-Jewish Hospital",
   str "Tampa General Hospital",
   str "AdventHealth",
   str "HCA Healthcare"]

/-! ### Candidate scoring -/

structure ScoredCandidate where
  text : Str
  score : Int
  lineIndex : Nat
deriving Repr, DecidableEq

/-- Embeds `scorePositionCandidate`. -/
def scorePositionCandidate (text : Str) (isBeforeDate : Bool) (distanceFromDate : Nat)
    (hasPositionKeywords startsWithCapital : Bool) (length : Nat) : Int :=
  (if hasPositionKeywords then 40 else 0) +
  (if isBeforeDate then 20 else 0) +
  (if startsWithCapital then 10 else 0) +
  (if length > 10 ∧ length < 60 then 15 else 0) +
  (if distanceFromDate = 1 then 25
   else if distanceFromDate = 2 then 15
   else if distanceFromDate = 3 then 5 else 0) +
  (if lowerStr text = str "unknown" then -50 else 0) +
  (if searchWordBounded companyKwShort none text then -30 else 0) +
  (if locShape2 text then -30 else 0) +
  (if length < 5 ∨ length > 80 then -20 else 0) +
  (if allCaps2Shape text then -15 else 0)

/-- Embeds `scoreEmployerCandidate`. -/
def scoreEmployerCandidate (text : Str) (isBeforeDate : Bool) (distanceFromDate : Nat)
    (hasCompanyKeywords : Bool) (length : Nat) (isKnownHospital : Bool) : Int :=
  (if isKnownHospital then 50 else 0) +
  (if hasCompanyKeywords then 35 else 0) +
  (if isBeforeDate then 20 else 0) +
  (if length > 5 ∧ length < 100 then 10 else 0) +
  (if distanceFromDate = 1 then 20
   else if distanceFromDate = 2 then 10
   else if distanceFromDate = 3 then 5 else 0) +
  (if lowerStr text = str "unknown" then -50 else 0) +
  (if locShape2 text then -30 else 0) +
  (if containsAnyCI posKwEmployerPenalty text then -25 else 0) +
  (if length < 3 ∨ length > 150 then -20 else 0) +
  (if (splitWs text).length > 8 then -40 else 0) +
  (if searchWordBounded sentenceWordsScore none text ∧ (splitWs text).length > 5
   then -50 else 0) +
  (if endsPeriodBang text then -30 else 0)

/-- The first element of a stable descending sort by score (ties keep the
insertion order, as the V8 stable `sort`). -/
def pickBest : List ScoredCandidate → Option ScoredCandidate
  | [] => none
  | c :: cs => some (cs.foldl (fun best x => if x.score > best.score then x else best) c)

/-! ### The comma / parenthesis / `at` / dash shape matchers -/

/-- The state-ish test on the part after a comma:
`/[A-Z]{2}\s*\d{0,5}$|California|Texas|New York|Florida|Illinois|Pennsylvania|Ohio|Georgia|Michigan|Virginia/i`. -/
def isAlphaChar (c : Char) : Bool := upperAZ c || lowerAZ c

def stateSuffixFrom : Str → Bool
  | c1 :: c2 :: rest =>
    (isAlphaChar c1 && isAlphaChar c2 &&
      (let r1 := rest.dropWhile jsSpace
       let r2 := r1.dropWhile Char.isDigit
       decide (r1.length - r2.length ≤ 5) && r2.isEmpty)) ||
    stateSuffixFrom (c2 :: rest)
  | _ => false

def stateTest (s : Str) : Bool :=
  stateSuffixFrom s ||
  containsAnyCI
    [str "California", str "Texas", str "New York", str "Florida", str "Illinois",
     str "Pennsylvania", str "Ohio", str "Georgia", str "Michigan", str "Virginia"] s

/-- `^(.+?),\s*(.+)$`: the lazy first group stops at the first comma whose
continuation matches; a tail of only spaces leaves one space as group 2
(the `\s*` gives one back to `.+`). -/
def commaMatchGo (g1rev : Str) : Str → Option (Str × Str)
  | [] => none
  | c :: cs =>
    if ¬ dotChar c = true then none
    else if c = ',' ∧ g1rev.length ≥ 1 then
      let r2 := cs.dropWhile jsSpace
      if ¬ r2.isEmpty ∧ r2.all dotChar then some (g1rev.reverse, r2)
      else if r2.isEmpty ∧ ¬ cs.isEmpty then some (g1rev.reverse, [' '])
      else commaMatchGo (c :: g1rev) cs
    else commaMatchGo (c :: g1rev) cs

def commaMatch (s : Str) : Option (Str × Str) := commaMatchGo [] s

/-- `^(.+?)\s*\((.+?)\)\s*$`: the first `(` (with the spaces before it left
out of group 1), then the first `)` that is followed only by whitespace. -/
def parenClose (g2rev : Str) : Str → Option Str
  | [] => none
  | c :: cs =>
    if c = ')' ∧ g2rev.length ≥ 1 ∧ cs.all jsSpace then some g2rev.reverse
    else if dotChar c then parenClose (c :: g2rev) cs
    else none

def parenMatchGo (g1rev : Str) : Str → Option (Str × Str)
  | [] => none
  | c :: cs =>
    if c = '(' ∧ (g1rev.dropWhile jsSpace).length ≥ 1 then
      match parenClose [] cs with
      | some g2 => some ((g1rev.dropWhile jsSpace).reverse, g2)
      | none => parenMatchGo (c :: g1rev) cs
    else if dotChar c then parenMatchGo (c :: g1rev) cs
    else none

def parenMatch (s : Str) : Option (Str × Str) := parenMatchGo [] s

/-- `^(.+?)\s+at\s+(.+)$/i`: the leftmost ` at ` split with a non-empty
group on each side. -/
def atMatchGo (g1rev : Str) : Str → Option (Str × Str)
  | [] => none
  | c :: cs =>
    (if jsSpace c ∧ g1rev.length ≥ 1 then
      let r1 := (c :: cs).dropWhile jsSpace
      match stripCI (str "at") r1 with
      | some r2 =>
        let r3 := r2.dropWhile jsSpace
        if r3.length < r2.length ∧ ¬ r3.isEmpty ∧ r3.all dotChar then
          some (g1rev.reverse, r3)
        else none
      | none => none
     else none) <|>
    (if dotChar c then atMatchGo (c :: g1rev) cs else none)

def atMatch (s : Str) : Option (Str × Str) := atMatchGo [] s

/-- `^(.+?)\s+[-–—]\s+(.+)$`: the leftmost dash (of the three-dash class)
framed by at least one space either side. -/
def dashChar3 (c : Char) : Bool := c == '-' || c == '–' || c == '—'

def dashMatchGo (g1rev : Str) : Str → Option (Str × Str)
  | [] => none
  | c :: cs =>
    (if jsSpace c ∧ g1rev.length ≥ 1 then
      let r1 := (c :: cs).dropWhile jsSpace
      match r1 with
      | d :: r2 =>
        if dashChar3 d then
          let r3 := r2.dropWhile jsSpace
          if r3.length < r2.length ∧ ¬ r3.isEmpty ∧ r3.all dotChar then
            some (g1rev.reverse, r3)
          else none
        else none
      | [] => none
     else none) <|>
    (if dotChar c then dashMatchGo (c :: g1rev) cs else none)

def dashMatch (s : Str) : Option (Str × Str) := dashMatchGo [] s

example : atMatch (str "Staff Nurse at Mercy Hospital") =
    some (str "Staff Nurse", str "Mercy Hospital") := by decide
example : parenMatch (str "Staff Nurse (Mercy Hospital)") =
    some (str "Staff Nurse", str "Mercy Hospital") := by decide
example : dashMatch (str "Staff Nurse - Medical Oncology") =
    some (str "Staff Nurse", str "Medical Oncology") := by decide
example : commaMatch (str "Tampa General Hospital, Tampa FL") =
    some (str "Tampa General Hospital", str "Tampa FL") := by decide
example : stateTest (str "Tampa FL") = true := by decide

/-! ### Excluded-section masking

Each `sectionsToExclude` pattern has the shape `\n(ALTS)[\s:]*\n` with
case-insensitive literal alternatives glued by whitespace classes and
greedy optional plurals.  An alternative is flattened into token
sequences in the engine's backtracking order (optional parts present
first); the classes are followed by characters outside them, so their
greedy match is the maximal munch. -/

inductive Tok where
  | lit (l : Str)
  | cstar (p : Char → Bool)
  | cplus (p : Char → Bool)

def spStar : Tok := Tok.cstar jsSpace
def spPlus : Tok := Tok.cplus jsSpace
def commaSpStar : Tok := Tok.cstar (fun c => c == ',' || jsSpace c)
def commaAmpSpStar : Tok := Tok.cstar (fun c => c == ',' || c == '&' || jsSpace c)
def tlit (s : String) : Tok := Tok.lit (str s)

/-- Run a token sequence at the start of the input (deterministically, the
classes being followed by characters outside them). -/
def runToks : List Tok → Str → Option Str
  | [], s => some s
  | Tok.lit l :: ts, s => (stripCI l s).bind (fun r => runToks ts r)
  | Tok.cstar p :: ts, s => runToks ts (s.dropWhile p)
  | Tok.cplus p :: ts, s =>
    let r := s.dropWhile p
    if r.length < s.length then runToks ts r else none

/-- The greedy tail `[\s:]*\n`: the class contains `\n`, so the match runs
through the last newline of the `[\s:]` run (backtracking from the maximal
munch).  Returns the consumed length. -/
def sectionTailGo : Str → Nat → Option Nat → Option Nat
  | [], _, best => best
  | c :: cs, k, best =>
    if c = '\n' then sectionTailGo cs (k + 1) (some (k + 1))
    else if jsSpace c || c = ':' then sectionTailGo cs (k + 1) best
    else best

/-- One attempt of `\n(ALTS)[\s:]*\n` at the current position: the leading
newline, then each flattened alternative in order, each continued through
the tail before the next is tried.  Returns the match length. -/
def sectionHere (alts : List (List Tok)) : Str → Option Nat
  | '\n' :: rest =>
    alts.findSome? (fun toks =>
      (runToks toks rest).bind (fun r =>
        (sectionTailGo r 0 none).map (fun t => 1 + (rest.length - r.length) + t)))
  | _ => none

/-- Leftmost match of a section pattern: index and length. -/
def sectionSearch (alts : List (List Tok)) : Str → Option (Nat × Nat)
  | [] => none
  | c :: cs =>
    match sectionHere alts (c :: cs) with
    | some len => some (0, len)
    | none => (sectionSearch alts cs).map (fun p => (p.1 + 1, p.2))

/-- `[A-Z\s&,]`, the class of the next-section-header pattern. -/
def hdrChar (c : Char) : Bool := upperAZ c || jsSpace c || c == '&' || c == ','

/-- The greedy `[A-Z\s&,]{7,}\n` tail of the next-section-header pattern:
some run of at least 7 class characters ended by a newline (the class
contains `\n`, so any newline inside the run qualifies). -/
def headerTailGo : Str → Nat → Bool
  | [], _ => false
  | c :: cs, cnt => (c = '\n' && decide (cnt ≥ 7)) || (hdrChar c && headerTailGo cs (cnt + 1))

/-- One attempt of `\n([A-Z][A-Z\s&,]{7,})\n` (case-sensitive). -/
def nextHeaderHere : Str → Bool
  | '\n' :: c :: rest => upperAZ c && headerTailGo rest 0
  | _ => false

/-- Index of the leftmost next-section-header match. -/
def nextHeaderIdx : Str → Option Nat
  | [] => none
  | c :: cs =>
    if nextHeaderHere (c :: cs) then some 0
    else (nextHeaderIdx cs).map (fun n => n + 1)

/-- One pass of the section-removal loop: splice out the matched section up
to the next major header (replacing it with `\n\n`), or truncate at the
section start when no later header exists. -/
def applySection (t : Str) (alts : List (List Tok)) : Str :=
  match sectionSearch alts t with
  | none => t
  | some (idx, len) =>
    match nextHeaderIdx (t.drop (idx + len)) with
    | some h => t.take idx ++ str "\n\n" ++ t.drop (idx + len + h)
    | none => t.take idx

/-- `EDUCATION(?:\s*&\s*CERTIFICATIONS?)?|ACADEMIC BACKGROUND|EDUCATIONAL
BACKGROUND|EDUCATIONAL ATTAINMENT`. -/
def sectionAlts1 : List (List Tok) :=
  [[tlit "education", spStar, tlit "&", spStar, tlit "certifications"],
   [tlit "education", spStar, tlit "&", spStar, tlit "certification"],
   [tlit "education"],
   [tlit "academic background"],
   [tlit "educational background"],
   [tlit "educational attainment"]]

/-- `HONORS[,\s]*AWARDS?[,\s&]*SCHOLARSHIPS?|AWARDS?\s+AND\s+HONORS?|
HONORS?\s+AND\s+AWARDS?|HONORS?\s*,\s*AWARDS?|AWARDS?\s*&\s*HONORS?`. -/
def sectionAlts2 : List (List Tok) :=
  [[tlit "honors", commaSpStar, tlit "awards", commaAmpSpStar, tlit "scholarships"],
   [tlit "honors", commaSpStar, tlit "awards", commaAmpSpStar, tlit "scholarship"],
   [tlit "honors", commaSpStar, tlit "award", commaAmpSpStar, tlit "scholarships"],
   [tlit "honors", commaSpStar, tlit "award", commaAmpSpStar, tlit "scholarship"],
   [tlit "awards", spPlus, tlit "and", spPlus, tlit "honors"],
   [tlit "awards", spPlus, tlit "and", spPlus, tlit "honor"],
   [tlit "award", spPlus, tlit "and", spPlus, tlit "honors"],
   [tlit "award", spPlus, tlit "and", spPlus, tlit "honor"],
   [tlit "honors", spPlus, tlit "and", spPlus, tlit "awards"],
   [tlit "honors", spPlus, tlit "and", spPlus, tlit "award"],
   [tlit "honor", spPlus, tlit "and", spPlus, tlit "awards"],
   [tlit "honor", spPlus, tlit "and", spPlus, tlit "award"],
   [tlit "honors", spStar, tlit ",", spStar, tlit "awards"],
   [tlit "honors", spStar, tlit ",", spStar, tlit "award"],
   [tlit "honor", spStar, tlit ",", spStar, tlit "awards"],
   [tlit "honor", spStar, tlit ",", spStar, tlit "award"],
   [tlit "awards", spStar, tlit "&", spStar, tlit "honors"],
   [tlit "awards", spStar, tlit "&", spStar, tlit "honor"],
   [tlit "award", spStar, tlit "&", spStar, tlit "honors"],
   [tlit "award", spStar, tlit "&", spStar, tlit "honor"]]

/-- `SEMINARS?\s+AND\s+TRAININGS?\s+ATTENDED|SEMINARS?\s+AND\s+TRAININGS?|
TRAININGS?\s+AND\s+SEMINARS?|SEMINARS?\s+ATTENDED|TRAININGS?\s+ATTENDED`. -/
def sectionAlts3 : List (List Tok) :=
  [[tlit "seminars", spPlus, tlit "and", spPlus, tlit "trainings", spPlus, tlit "attended"],
   [tlit "seminars", spPlus, tlit "and", spPlus, tlit "training", spPlus, tlit "attended"],
   [tlit "seminar", spPlus, tlit "and", spPlus, tlit "trainings", spPlus, tlit "attended"],
   [tlit "seminar", spPlus, tlit "and", spPlus, tlit "training", spPlus, tlit "attended"],
   [tlit "seminars", spPlus, tlit "and", spPlus, tlit "trainings"],
   [tlit "seminars", spPlus, tlit "and", spPlus, tlit "training"],
   [tlit "seminar", spPlus, tlit "and", spPlus, tlit "trainings"],
   [tlit "seminar", spPlus, tlit "and", spPlus, tlit "training"],
   [tlit "trainings", spPlus, tlit "and", spPlus, tlit "seminars"],
   [tlit "trainings", spPlus, tlit "and", spPlus, tlit "seminar"],
   [tlit "training", spPlus, tlit "and", spPlus, tlit "seminars"],
   [tlit "training", spPlus, tlit "and", spPlus, tlit "seminar"],
   [tlit "seminars", spPlus, tlit "attended"],
   [tlit "seminar", spPlus, tlit "attended"],
   [tlit "trainings", spPlus, tlit "attended"],
   [tlit "training", spPlus, tlit "attended"]]

/-- `CLINICAL\s+INTERNSHIP|INTERNSHIPS?|CLINICAL\s+ROTATIONS?|
RELATED\s+LEARNING\s+EXPERIENCE`. -/
def sectionAlts4 : List (List Tok) :=
  [[tlit "clinical", spPlus, tlit "internship"],
   [tlit "internships"],
   [tlit "internship"],
   [tlit "clinical", spPlus, tlit "rotations"],
   [tlit "clinical", spPlus, tlit "rotation"],
   [tlit "related", spPlus, tlit "learning", spPlus, tlit "experience"]]

/-- `PERSONAL\s+INFORMATION|PERSONAL\s+BACKGROUND|PERSONAL\s+DATA`. -/
def sectionAlts5 : List (List Tok) :=
  [[tlit "personal", spPlus, tlit "information"],
   [tlit "personal", spPlus, tlit "background"],
   [tlit "personal", spPlus, tlit "data"]]

/-- `CHARACTER\s+REFERENCES?|REFERENCES?`. -/
def sectionAlts6 : List (List Tok) :=
  [[tlit "character", spPlus, tlit "references"],
   [tlit "character", spPlus, tlit "reference"],
   [tlit "references"],
   [tlit "reference"]]

/-- `QUALIFICATIONS?\s+AND\s+MEMBERSHIP|MEMBERSHIPS?|AFFILIATIONS?|
PROFESSIONAL\s+MEMBERSHIPS?|PROFESSIONAL\s+AFFILIATIONS?`. -/
def sectionAlts7 : List (List Tok) :=
  [[tlit "qualifications", spPlus, tlit "and", spPlus, tlit "membership"],
   [tlit "qualification", spPlus, tlit "and", spPlus, tlit "membership"],
   [tlit "memberships"],
   [tlit "membership"],
   [tlit "affiliations"],
   [tlit "affiliation"],
   [tlit "professional", spPlus, tlit "memberships"],
   [tlit "professional", spPlus, tlit "membership"],
   [tlit "professional", spPlus, tlit "affiliations"],
   [tlit "professional", spPlus, tlit "affiliation"]]

/-- `LICENSES?\s*&\s*CERTIFICATIONS?|CERTIFICATIONS?\s*&\s*LICENSES?|
CERTIFICATIONS?`. -/
def sectionAlts8 : List (List Tok) :=
  [[tlit "licenses", spStar, tlit "&", spStar, tlit "certifications"],
   [tlit "licenses", spStar, tlit "&", spStar, tlit "certification"],
   [tlit "license", spStar, tlit "&", spStar, tlit "certifications"],
   [tlit "license", spStar, tlit "&", spStar, tlit "certification"],
   [tlit "certifications", spStar, tlit "&", spStar, tlit "licenses"],
   [tlit "certifications", spStar, tlit "&", spStar, tlit "license"],
   [tlit "certification", spStar, tlit "&", spStar, tlit "licenses"],
   [tlit "certification", spStar, tlit "&", spStar, tlit "license"],
   [tlit "certifications"],
   [tlit "certification"]]

/-- `CONTINUING\s+EDUCATION|PROFESSIONAL\s+DEVELOPMENT`. -/
def sectionAlts9 : List (List Tok) :=
  [[tlit "continuing", spPlus, tlit "education"],
   [tlit "professional", spPlus, tlit "development"]]

/-- `ADDITIONAL\s+INFORMATION|ADDITIONAL\s+QUALIFICATIONS?`. -/
def sectionAlts10 : List (List Tok) :=
  [[tlit "additional", spPlus, tlit "information"],
   [tlit "additional", spPlus, tlit "qualifications"],
   [tlit "additional", spPlus, tlit "qualification"]]

/-- The ten `sectionsToExclude` patterns in source order. -/
def sectionPatterns : List (List (List Tok)) :=
  [sectionAlts1, sectionAlts2, sectionAlts3, sectionAlts4, sectionAlts5,
   sectionAlts6, sectionAlts7, sectionAlts8, sectionAlts9, sectionAlts10]

/-- The whole exclusion loop over `experienceText`. -/
def maskText (t : Str) : Str := sectionPatterns.foldl applySection t

example : maskText (str "A\nEDUCATION\n2004\nWORK EXPERIENCE\nB") =
    str "A\n\n\nWORK EXPERIENCE\nB" := by decide
example : maskText (str "WORK\nJuly 2009\n\nEDUCATION:\nBSN 2004-2008\n") =
    str "WORK\nJuly 2009\n" := by decide
example : maskText (str "2009 - 2005 Quezon City General Hospital") =
    str "2009 - 2005 Quezon City General Hospital" := by decide

/-! ### Entry building: the per-anchor enrichment pipeline -/

/-- JavaScript `x === entry.field` where the field may be undefined. -/
def optEq (o : Option Str) (s : Str) : Bool := o == some s

/-- `KNOWN_HOSPITALS.some(h => t.toLowerCase().includes(h.toLowerCase()))`. -/
def knownHospital (s : Str) : Bool :=
  KNOWN_HOSPITALS.any (fun h => containsStr (lowerStr h) (lowerStr s))

/-- The separator class `[|•·]`. -/
def pipeSep (c : Char) : Bool := c == '|' || c == '•' || c == '·'

def startsWith11 (s : Str) : Bool :=
  match s with
  | c :: _ => bulletGlyph11 c
  | [] => false

/-- The initial entry at a date anchor: same-line position (text before the
date with a position keyword), same-line employer (text after the date),
and the start/end dates from the match groups. -/
def buildEntryInit (line : Str) (idx : Nat) (m : DRMatch) : ExperienceEntry :=
  let matched := (line.drop idx).take m.len
  let textBeforeDate := trimStr (line.take idx)
  let textAfterDate := trimStr (line.drop (idx + m.len))
  let position :=
    if textBeforeDate.length > 3 ∧ textBeforeDate.length < 100 ∧
        containsAnyCI posKwSameLine textBeforeDate then some textBeforeDate
    else none
  let employer :=
    if textAfterDate.length > 3 ∧ textAfterDate.length < 100 then some textAfterDate
    else none
  let start_date :=
    if truthy m.g1 ∧ ¬ m.g2.isEmpty = true then some (m.g1.getD [] ++ ' ' :: m.g2)
    else if ¬ m.g2.isEmpty = true then some (str "January " ++ m.g2)
    else none
  let end_date :=
    if containsAnyCI [str "present", str "current"] matched then some (str "Present")
    else if truthy m.g3 ∧ truthy m.g4 then some (m.g3.getD [] ++ ' ' :: m.g4.getD [])
    else if truthy m.g4 then some (str "December " ++ m.g4.getD [])
    else none
  { employer := employer, position := position, start_date := start_date,
    end_date := end_date }

/-- The before-window position-candidate collection (also records a
pipe-extracted location on the entry). -/
def beforePosLoop (n : Nat) : ExperienceEntry → List (Nat × Str) →
    List ScoredCandidate × ExperienceEntry
  | e, [] => ([], e)
  | e, (j, raw) :: rest =>
    let candidateLine := trimStr raw
    if candidateLine.isEmpty ∨ candidateLine.length < 3 then beforePosLoop n e rest
    else if headerShape4 candidateLine then beforePosLoop n e rest
    else if numsBulletsShape candidateLine then beforePosLoop n e rest
    else if containsCI (str "page ") candidateLine then beforePosLoop n e rest
    else if pageNumShape candidateLine then beforePosLoop n e rest
    else
      let hasPipe := candidateLine.contains '|'
      let parts := (splitOnChar '|' candidateLine).map trimStr
      let textToScore := if hasPipe then parts.headD [] else candidateLine
      let extractedLocation := if hasPipe then parts.getD 1 [] else []
      let hasKw := containsAnyCI posKwBefore textToScore
      if ¬ hasKw = true ∧ locShape3 textToScore then beforePosLoop n e rest
      else if personNameShape textToScore ∧ (splitWs textToScore).length ≤ 4 then
        beforePosLoop n e rest
      else
        let score := scorePositionCandidate textToScore true (n - j) hasKw
          (capLowerShape textToScore) textToScore.length
        let e2 :=
          if ¬ extractedLocation.isEmpty ∧ extractedLocation.length < 80 ∧
              ¬ truthy e.location = true then
            { e with location := some extractedLocation }
          else e
        let r := beforePosLoop n e2 rest
        (⟨textToScore, score, j⟩ :: r.1, r.2)

/-- The pipe-location scan run instead when the position came from the same
line. -/
def scanPipeLoc : ExperienceEntry → List Str → ExperienceEntry
  | e, [] => e
  | e, raw :: rest =>
    let candidateLine := trimStr raw
    let e2 :=
      if ¬ candidateLine.isEmpty ∧ candidateLine.contains '|' ∧
          ¬ truthy e.location = true then
        let parts := (splitOnChar '|' candidateLine).map trimStr
        if ¬ (parts.getD 1 []).isEmpty ∧ (parts.getD 1 []).length < 80 then
          { e with location := some (parts.getD 1 []) }
        else e
      else e
    scanPipeLoc e2 rest

/-- The after-window position-candidate collection (break at another date,
a section header, or a bullet of the six-glyph class). -/
def afterPosLoop (lines : List Str) (i : Nat) : List Nat → List ScoredCandidate
  | [] => []
  | j :: js =>
    let candidateLine := trimStr (lines.getD j [])
    if candidateLine.isEmpty then afterPosLoop lines i js
    else if dateRangeTest candidateLine then []
    else if headerShape1_3 candidateLine then []
    else if startsWith6 candidateLine || numberedStart candidateLine then []
    else if locShape3 candidateLine then afterPosLoop lines i js
    else
      let hasKw := containsAnyCI posKwAfter candidateLine
      if ¬ hasKw = true then afterPosLoop lines i js
      else
        let score := scorePositionCandidate candidateLine false (j - i) hasKw
          (capLowerShape candidateLine) candidateLine.length
        ⟨candidateLine, score + 10, j⟩ :: afterPosLoop lines i js

/-- The whole position-selection stage: before-window candidates and pick
(or the pipe-location scan when the position came from the same line),
then the after-window comparison. -/
def positionStage (lines : List Str) (i : Nat) (e0 : ExperienceEntry) : ExperienceEntry :=
  let beforeLines := (lines.take i).drop (i - 3)
  if truthy e0.position = true then scanPipeLoc e0 beforeLines
  else
    let r := beforePosLoop beforeLines.length e0 beforeLines.enum
    let e1 := r.2
    let e2 :=
      match pickBest r.1 with
      | some best => if best.score > 0 then { e1 with position := some best.text } else e1
      | none => e1
    let afterCands :=
      afterPosLoop lines i (List.range' (i + 1) (min lines.length (i + 5) - (i + 1)))
    match pickBest afterCands with
    | some bestAfter =>
      let bestBefore :=
        match pickBest r.1 with
        | some b => if b.score > 0 then some b else none
        | none => none
      (match bestBefore with
       | none => { e2 with position := some bestAfter.text }
       | some bb =>
         if bestAfter.score > bb.score then { e2 with position := some bestAfter.text }
         else e2)
    | none => e2

/-- The unknown-position fallback loop over the ten lines after the date. -/
def unknownPosLoop (lines : List Str) : ExperienceEntry → List Nat → ExperienceEntry
  | e, [] => e
  | e, j :: js =>
    let candidateLine := trimStr (lines.getD j [])
    if candidateLine.isEmpty then unknownPosLoop lines e js
    else if dateRangeTest candidateLine then unknownPosLoop lines e js
    else if headerShape1_3 candidateLine then unknownPosLoop lines e js
    else if startsWith6 candidateLine || numberedStart candidateLine then
      unknownPosLoop lines e js
    else if truthy e.employer ∧ optEq e.employer candidateLine then unknownPosLoop lines e js
    else if truthy e.location ∧ optEq e.location candidateLine then unknownPosLoop lines e js
    else if locShape2 candidateLine then unknownPosLoop lines e js
    else if candidateLine.contains '|' ∧
        containsAnyCI posKwPipeFallback (((splitOnChar '|' candidateLine).map trimStr).headD []) then
      { e with position := some (((splitOnChar '|' candidateLine).map trimStr).headD []) }
    else if containsAnyCI posKwFallback candidateLine ∧ candidateLine.length < 80 ∧
        ¬ searchWordBounded companyKwShort none candidateLine = true then
      { e with position := some candidateLine }
    else if capLowerShape candidateLine ∧ candidateLine.length > 5 ∧
        candidateLine.length < 80 ∧ (splitWs candidateLine).length ≤ 6 ∧
        ¬ allCaps2Shape candidateLine = true then
      { e with position := some candidateLine }
    else unknownPosLoop lines e js

def unknownPosStage (lines : List Str) (i : Nat) (e : ExperienceEntry) : ExperienceEntry :=
  if ¬ truthy e.position = true ∨ lowerStr (e.position.getD []) = str "unknown" ∨
      lowerStr (e.position.getD []) = str "n/a" then
    unknownPosLoop lines e (List.range' (i + 1) (min lines.length (i + 10) - (i + 1)))
  else e

/-- The before-window employer-candidate collection (also records a
pipe/bullet-extracted location on the entry). -/
def beforeEmpLoop (n : Nat) : ExperienceEntry → List (Nat × Str) →
    List ScoredCandidate × ExperienceEntry
  | e, [] => ([], e)
  | e, (j, raw) :: rest =>
    let candidateLine := trimStr raw
    if candidateLine.isEmpty ∨ candidateLine.length < 3 then beforeEmpLoop n e rest
    else if truthy e.position ∧ optEq e.position candidateLine then beforeEmpLoop n e rest
    else if startsWith11 candidateLine || numberedStart candidateLine then beforeEmpLoop n e rest
    else if candidateLine.contains '|' ∧
        containsAnyCI posKwPipe (((splitOnChar '|' candidateLine).map trimStr).headD []) then
      beforeEmpLoop n e rest
    else if headerShape4 candidateLine then beforeEmpLoop n e rest
    else if numsBulletsShape candidateLine then beforeEmpLoop n e rest
    else if containsCI (str "page ") candidateLine then beforeEmpLoop n e rest
    else
      let textToScore := trimStr ((splitOnAny ['|', '•', '·'] candidateLine).headD [])
      let isKnown := knownHospital textToScore
      let hasKw := searchWordBounded companyKwBefore none textToScore
      let score := scoreEmployerCandidate textToScore true (n - j) hasKw
        textToScore.length isKnown
      let e2 :=
        if candidateLine.any pipeSep ∧ ¬ truthy e.location = true then
          let parts := (splitOnAny ['|', '•', '·'] candidateLine).map trimStr
          if ¬ (parts.getD 1 []).isEmpty ∧ (parts.getD 1 []).length < 80 then
            { e with location := some (parts.getD 1 []) }
          else e
        else e
      let r := beforeEmpLoop n e2 rest
      (⟨textToScore, score, j⟩ :: r.1, r.2)

/-- Outcome of one line of the after-window employer search. -/
inductive EmpScan where
  | cont
  | stop
  | hit (emp : Str) (loc : Option Str)
deriving Repr, DecidableEq

/-- One line of the after-window employer search (pipe form, bullet form,
plain line with company keywords or a known hospital, possibly split at a
comma before a state-like part).  A `hit` carries the location candidate
that is recorded when the entry has none yet (the length/emptiness checks
do not involve the entry). -/
def afterEmpStep (candidateLine : Str) : EmpScan :=
  if candidateLine.isEmpty then EmpScan.cont
  else if startsWith7 candidateLine || numberedStart candidateLine then EmpScan.stop
  else if headerShape1_3 candidateLine then EmpScan.stop
  else if dateRangeTest candidateLine then EmpScan.stop
  else
    let pipeHit :=
      if candidateLine.contains '|' then
        let parts := (splitOnChar '|' candidateLine).map trimStr
        if searchWordBounded companyKwAfter none (parts.headD []) ||
            knownHospital (parts.headD []) then
          some (parts.headD [], parts.getD 1 [])
        else none
      else none
    match pipeHit with
    | some (empPart, locPart) =>
      EmpScan.hit empPart
        (if ¬ locPart.isEmpty ∧ locPart.length < 80 then some locPart else none)
    | none =>
      let bulletHit :=
        if candidateLine.contains '•' || candidateLine.contains '·' then
          let parts := (splitOnAny ['•', '·'] candidateLine).map trimStr
          if searchWordBounded companyKwAfter none (parts.headD []) ||
              knownHospital (parts.headD []) then
            some (parts.headD [], parts.getD 1 [])
          else none
        else none
      match bulletHit with
      | some (empPart, locPart) =>
        EmpScan.hit empPart
          (if ¬ locPart.isEmpty ∧ locPart.length < 80 then some locPart else none)
      | none =>
        if (searchWordBounded companyKwAfter none candidateLine ||
            knownHospital candidateLine) ∧ candidateLine.length < 100 then
          match commaMatch candidateLine with
          | some (a, b) =>
            if stateTest b then EmpScan.hit (trimStr a) (some (trimStr b))
            else EmpScan.hit candidateLine none
          | none => EmpScan.hit candidateLine none
        else EmpScan.cont

/-- The after-window employer search loop.  Returns the updated entry and
the line index the employer was found on. -/
def afterEmpLoop (lines : List Str) : ExperienceEntry → List Nat →
    ExperienceEntry × Option Nat
  | e, [] => (e, none)
  | e, j :: js =>
    match afterEmpStep (trimStr (lines.getD j [])) with
    | EmpScan.cont => afterEmpLoop lines e js
    | EmpScan.stop => (e, none)
    | EmpScan.hit empPart loc =>
      let e2 := { e with employer := some empPart }
      (match loc with
       | some l => if ¬ truthy e.location = true then { e2 with location := some l } else e2
       | none => e2,
       some j)

/-- The department scan between the date line and the employer line. -/
def deptLoop (lines : List Str) (pos emp : Option Str) : List Nat → Option Str
  | [] => none
  | j :: js =>
    let candidateLine := trimStr (lines.getD j [])
    if candidateLine.isEmpty then deptLoop lines pos emp js
    else if optEq pos candidateLine then deptLoop lines pos emp js
    else if candidateLine.length ≥ 3 ∧ candidateLine.length < 60 ∧
        ¬ startsWith7 candidateLine = true ∧ ¬ numberedStart candidateLine = true ∧
        ¬ optEq emp candidateLine = true then some candidateLine
    else deptLoop lines pos emp js

/-- The whole employer stage: before-window candidates and pick, the
after-window search when no employer was found, then the department
detection. -/
def employerStage (lines : List Str) (i : Nat) (e : ExperienceEntry) : ExperienceEntry :=
  let beforeLines := (lines.take i).drop (i - 3)
  let r := beforeEmpLoop beforeLines.length e beforeLines.enum
  let e5 := r.2
  let e6 :=
    match pickBest r.1 with
    | some best => if best.score > 0 then { e5 with employer := some best.text } else e5
    | none => e5
  let ra :=
    if ¬ truthy e6.employer = true then
      afterEmpLoop lines e6 (List.range' (i + 1) (min lines.length (i + 6) - (i + 1)))
    else (e6, none)
  let e7 := ra.1
  match ra.2 with
  | some fj =>
    if fj > i + 1 ∧ ¬ truthy e7.department = true then
      match deptLoop lines e7.position e7.employer (List.range' (i + 1) (fj - (i + 1))) with
      | some d => { e7 with department := some d }
      | none => e7
    else e7
  | none => e7

/-- The embedded-employer stage: `Position (Employer)`, `Position at
Employer`, `Position - Employer/Department`, applied in sequence to the
evolving position. -/
def embeddedStage (e : ExperienceEntry) : ExperienceEntry :=
  if truthy e.position ∧ ¬ truthy e.employer = true then
    let e1 :=
      match parenMatch (e.position.getD []) with
      | some (g1, g2) =>
        { e with employer := some (trimStr g2), position := some (trimStr g1) }
      | none => e
    let e2 :=
      match atMatch (e1.position.getD []) with
      | some (g1, g2) =>
        { e1 with position := some (trimStr g1), employer := some (trimStr g2) }
      | none => e1
    match dashMatch (e2.position.getD []) with
    | some (g1, g2) =>
      if g2.length > 3 then
        if knownHospital g2 || searchWordBounded companyKwDash none g2 then
          { e2 with position := some (trimStr g1), employer := some (trimStr g2) }
        else if ¬ truthy e2.department = true then
          { e2 with position := some (trimStr g1), department := some (trimStr g2) }
        else e2
      else e2
    | none => e2
  else e

/-- The employer fallback loop over the before-window lines, last first. -/
def fallbackEmpLoop : ExperienceEntry → List Str → ExperienceEntry
  | e, [] => e
  | e, raw :: rest =>
    let possibleEmployer := trimStr raw
    if possibleEmployer.isEmpty then fallbackEmpLoop e rest
    else if optEq e.position possibleEmployer then fallbackEmpLoop e rest
    else if possibleEmployer.contains '|' ∧
        containsAnyCI posKwPipe (((splitOnChar '|' possibleEmployer).map trimStr).headD []) then
      fallbackEmpLoop e rest
    else if locShape2 possibleEmployer then fallbackEmpLoop e rest
    else if lowerStr possibleEmployer = str "unknown" then fallbackEmpLoop e rest
    else if possibleEmployer.length < 3 then fallbackEmpLoop e rest
    else if possibleEmployer.contains '|' then
      let parts := (splitOnChar '|' possibleEmployer).map trimStr
      let e2 := { e with employer := some (parts.headD []) }
      if ¬ truthy e.location = true ∧ ¬ (parts.getD 1 []).isEmpty ∧
          (parts.getD 1 []).length < 80 then
        { e2 with location := some (parts.getD 1 []) }
      else e2
    else
      let looksSentence := possibleEmployer.length > 50 ∨
        (searchWordBounded sentenceWordsFallback none possibleEmployer ∧
         (splitWs possibleEmployer).length > 6)
      if ¬ looksSentence ∧
          (searchWordBounded companyKwFallback none possibleEmployer ∨
           capNameShape possibleEmployer) then
        { e with employer := some possibleEmployer }
      else fallbackEmpLoop e rest

def fallbackEmpStage (lines : List Str) (i : Nat) (e : ExperienceEntry) : ExperienceEntry :=
  if truthy e.position ∧ ¬ truthy e.employer = true then
    fallbackEmpLoop e ((lines.take i).drop (i - 3)).reverse
  else e

/-- The employer cleanup: keep the part before a `[|•·]` separator when it
is longer than two characters. -/
def cleanupEmployer (e : ExperienceEntry) : ExperienceEntry :=
  match e.employer with
  | some emp =>
    if emp.any pipeSep then
      let cleaned := trimStr ((splitOnAny ['|', '•', '·'] emp).headD [])
      if cleaned.length > 2 then { e with employer := some cleaned } else e
    else e
  | none => e

/-- The before-window location scan, last line first. -/
def locBeforeLoop (pos emp : Option Str) : List Str → Option Str
  | [] => none
  | raw :: rest =>
    let candidateLine := trimStr raw
    if (truthy pos ∧ optEq pos candidateLine) ∨ (truthy emp ∧ optEq emp candidateLine) then
      locBeforeLoop pos emp rest
    else if locShape3 candidateLine ∧ candidateLine.length < 80 then some candidateLine
    else locBeforeLoop pos emp rest

/-- The after-window location scan. -/
def locAfterLoop (lines : List Str) : List Nat → Option Str
  | [] => none
  | j :: js =>
    let candidateLine := trimStr (lines.getD j [])
    if locShape3 candidateLine ∧ candidateLine.length < 80 ∧
        ¬ startsWith6 candidateLine = true ∧ ¬ numberedStart candidateLine = true then
      some candidateLine
    else locAfterLoop lines js

def locationStage (lines : List Str) (i : Nat) (e : ExperienceEntry) : ExperienceEntry :=
  let beforeLines := (lines.take i).drop (i - 3)
  let e12 :=
    if ¬ truthy e.location = true then
      match locBeforeLoop e.position e.employer beforeLines.reverse with
      | some l => { e with location := some l }
      | none => e
    else e
  if ¬ truthy e12.location = true then
    match locAfterLoop lines (List.range' (i + 1) (min lines.length (i + 3) - (i + 1))) with
    | some l => { e12 with location := some l }
    | none => e12
  else e12

/-- `.replace(/^[•\-\*▪●◦]\s*/, "").replace(/^\d+[.)]\s*/, "").trim()`. -/
def stripBullet (s : Str) : Str :=
  let s1 :=
    match s with
    | c :: cs => if bulletGlyph6 c then cs.dropWhile jsSpace else s
    | [] => s
  let d := s1.dropWhile Char.isDigit
  let s2 :=
    if d.length < s1.length then
      match d with
      | c :: cs => if c == '.' || c == ')' then cs.dropWhile jsSpace else s1
      | [] => s1
    else s1
  trimStr s2

/-- The description collection loop (stop at two blank lines, a section
header or another date; skip already-extracted fields and location-like
lines; bullets are stripped of their markers). -/
def bulletsLoop (lines : List Str) (e : ExperienceEntry) : Nat → List Nat → List Str
  | _, [] => []
  | cnt, j :: js =>
    let descLine := trimStr (lines.getD j [])
    if descLine.isEmpty then
      if cnt + 1 ≥ 2 then [] else bulletsLoop lines e (cnt + 1) js
    else if headerShape1_3 descLine then []
    else if dateRangeTest descLine then []
    else if pageSeparatorShape descLine then bulletsLoop lines e 0 js
    else if truthy e.position ∧ optEq e.position descLine then bulletsLoop lines e 0 js
    else if truthy e.employer ∧ optEq e.employer descLine then bulletsLoop lines e 0 js
    else if truthy e.location ∧ optEq e.location descLine then bulletsLoop lines e 0 js
    else if truthy e.department ∧ optEq e.department descLine then bulletsLoop lines e 0 js
    else if truthy e.employer ∧ containsStr (e.employer.getD []) descLine ∧
        descLine.length < 120 then bulletsLoop lines e 0 js
    else if truthy e.location ∧ optEq e.location descLine then bulletsLoop lines e 0 js
    else if ¬ startsWith6 descLine = true ∧ ¬ numberedStart descLine = true ∧
        descLocShape descLine ∧ descLine.length < 80 then bulletsLoop lines e 0 js
    else if lowerStr descLine = str "unknown" ∨ lowerStr descLine = str "n/a" then
      bulletsLoop lines e 0 js
    else if startsWith6 descLine || numberedStart descLine then
      stripBullet descLine :: bulletsLoop lines e 0 js
    else if descLine.length > 10 ∧ descLine.length < 300 then
      if ¬ allCapsHeader10 descLine = true then descLine :: bulletsLoop lines e 0 js
      else bulletsLoop lines e 0 js
    else bulletsLoop lines e 0 js

def joinLines : List Str → Str
  | [] => []
  | [s] => s
  | s :: ss => s ++ '\n' :: joinLines ss

/-- `bullets.map(b => "• " + b).join("\n")`. -/
def bulletsText (bs : List Str) : Str := joinLines (bs.map (fun b => str "• " ++ b))

def descriptionStage (lines : List Str) (i : Nat) (e : ExperienceEntry) : ExperienceEntry :=
  let bullets := bulletsLoop lines e 0 (List.range' (i + 1) (lines.length - (i + 1)))
  if bullets.length > 0 then { e with description := some (bulletsText bullets) } else e

/-- The whole entry construction at a date anchor, in source order. -/
def buildEntryFull (lines : List Str) (i : Nat) (line : Str) (idx : Nat)
    (m : DRMatch) : ExperienceEntry :=
  descriptionStage lines i
    (locationStage lines i
      (cleanupEmployer
        (fallbackEmpStage lines i
          (embeddedStage
            (employerStage lines i
              (unknownPosStage lines i
                (positionStage lines i (buildEntryInit line idx m))))))))

/-- One iteration of the line loop of `extractExperience`: the date-range
anchor, the three guards, the entry construction, and the push guarded on
`start_date`. -/
def processLine (lines : List Str) (i : Nat) (line : Str) : Option ExperienceEntry :=
  match dateRangeSearch line with
  | none => none
  | some (idx, m) =>
    if semesterGuard line then none
    else if seminarGuard line then none
    else if bulletGuard line then none
    else
      let entry := buildEntryFull lines i line idx m
      if truthy entry.start_date then some entry else none

/-- Embeds `extractExperience`: mask excluded sections, split into lines,
and collect the entries the line loop pushes. -/
def extractExperience (text : Str) : List ExperienceEntry :=
  let lines := splitOnNl (maskText text)
  lines.enum.filterMap (fun p => processLine lines p.1 p.2)

/-- The reversed-range text of the end-date analysis. -/
def cxText : Str := str "2009 - 2005 Quezon City General Hospital"

/-- The entry the extractor builds on `cxText`. -/
def cxEntry : ExperienceEntry :=
  { employer := some (str "Quezon City General Hospital"),
    start_date := some (str "January 2009"),
    end_date := some (str "December 2005") }

example : extractExperience cxText = [cxEntry] := by decide
example : extractExperience (str "■ 2016 - 2018 honors") = [] := by decide
example : extractExperience (str "▶ 2016 - 2018") =
    [{ start_date := some (str "January 2016"),
       end_date := some (str "December 2018") }] := by decide
example : extractExperience (str "Senior ICU Registered Nurse Jan 2020 - Present\nPain Management\nCedars-Sinai Medical Center • Los Angeles, California\n• Cared for patients") =
    [{ employer := some (str "Cedars-Sinai Medical Center"),
       position := some (str "Senior ICU Registered Nurse"),
       start_date := some (str "Jan 2020"),
       end_date := some (str "Present"),
       department := some (str "Pain Management"),
       description := some (str "• Cared for patients"),
       location := some (str "Los Angeles, California") }] := by decide

/-! ### The year group of a date-range match is four digits -/

theorem orElse_eq_some' {α : Type} {a b : Option α} {v : α} (h : (a <|> b) = some v) :
    a = some v ∨ b = some v := by
  cases a with
  | none => right; simpa using h
  | some w => left; simpa using h

theorem year4_digits {s y r : Str} (h : year4 s = some (y, r)) :
    y.length = 4 ∧ y.all Char.isDigit = true := by
  match s with
  | [] => simp [year4] at h
  | [_] => simp [year4] at h
  | [_, _] => simp [year4] at h
  | [_, _, _] => simp [year4] at h
  | a :: b :: c :: d :: rest =>
    rw [year4] at h
    split at h
    · rename_i hd
      simp only [Option.some.injEq, Prod.mk.injEq] at h
      obtain ⟨rfl, -⟩ := h
      refine ⟨rfl, ?_⟩
      simp only [Bool.and_eq_true] at hd
      obtain ⟨⟨⟨ha, hb⟩, hc⟩, hdd⟩ := hd
      simp [List.all_cons, ha, hb, hc, hdd]
    · simp at h

theorem dayBranch_digits {r0 : Str} {yr : Str × Str}
    (h : ((match r0 with
           | d1 :: d2 :: rest =>
             if d1.isDigit && d2.isDigit then year4 (eatWsCommaWs rest) else none
           | _ => none) <|>
          (match r0 with
           | d1 :: rest => if d1.isDigit then year4 (eatWsCommaWs rest) else none
           | _ => none) <|>
          year4 r0) = some yr) :
    yr.1.length = 4 ∧ yr.1.all Char.isDigit = true := by
  have hy : ∀ s : Str, year4 s = some yr → yr.1.length = 4 ∧ yr.1.all Char.isDigit = true := by
    intro s hs
    exact year4_digits (y := yr.1) (r := yr.2) hs
  rcases orElse_eq_some' h with h1 | h23
  · split at h1
    · split at h1
      · exact hy _ h1
      · simp at h1
    · simp at h1
  · rcases orElse_eq_some' h23 with h2 | h3
    · split at h2
      · split at h2
        · exact hy _ h2
        · simp at h2
      · simp at h2
    · exact hy _ h3

theorem endAttempt_g4 {s : Str} {t : Option Str × Option Str × Str}
    (h : endAttempt s = some t) :
    t.2.1 = none ∨ ∃ y, t.2.1 = some y ∧ y.length = 4 ∧ y.all Char.isDigit = true := by
  rw [endAttempt] at h
  split at h
  · rename_i m y r hfind
    obtain ⟨alt, -, hf⟩ := List.exists_of_findSome?_eq_some hfind
    cases hs : stripCI alt s with
    | none => rw [hs] at hf; simp at hf
    | some r' =>
      rw [hs] at hf
      simp only [Option.some_bind] at hf
      rw [Option.map_eq_some'] at hf
      obtain ⟨yr, hyr, hval⟩ := hf
      obtain ⟨hlen, hdig⟩ := dayBranch_digits hyr
      simp only [Prod.mk.injEq] at hval
      obtain ⟨-, hyv, -⟩ := hval
      injection h with ht
      subst ht
      right
      exact ⟨yr.1, by rw [← hyv], hlen, hdig⟩
  · split at h
    · rename_i y r hy4
      injection h with ht
      subst ht
      right
      obtain ⟨hlen, hdig⟩ := year4_digits hy4
      exact ⟨y, rfl, hlen, hdig⟩
    · split at h
      · injection h with ht; subst ht; left; rfl
      · split at h
        · injection h with ht; subst ht; left; rfl
        · simp at h

theorem finishRange_g4 {s r1 : Str} {g1 : Option Str} {g2 : Str} {m : DRMatch}
    (h : finishRange s g1 g2 r1 = some m) :
    m.g4 = none ∨ ∃ y, m.g4 = some y ∧ y.length = 4 ∧ y.all Char.isDigit = true := by
  rw [finishRange] at h
  cases hsep : sepAfterYear r1 with
  | none => rw [hsep] at h; simp at h
  | some r2 =>
    rw [hsep] at h
    simp only [Option.some_bind] at h
    rw [Option.map_eq_some'] at h
    obtain ⟨e, he, hm⟩ := h
    rcases endAttempt_g4 he with h0 | ⟨y, hy, hlen, hdig⟩
    · left; rw [← hm]; exact h0
    · right; exact ⟨y, by rw [← hm]; exact hy, hlen, hdig⟩

theorem dateRangeHere_g4 {s : Str} {m : DRMatch} (h : dateRangeHere s = some m) :
    m.g4 = none ∨ ∃ y, m.g4 = some y ∧ y.length = 4 ∧ y.all Char.isDigit = true := by
  rw [dateRangeHere] at h
  split at h
  · rename_i m' hfind
    injection h with h'
    subst h'
    obtain ⟨alt, -, hf⟩ := List.exists_of_findSome?_eq_some hfind
    cases hs : stripCI alt s with
    | none => rw [hs] at hf; simp at hf
    | some r =>
      rw [hs] at hf
      simp only [Option.some_bind] at hf
      rcases orElse_eq_some' hf with h1 | h23
      · split at h1
        · split at h1
          · rw [Option.bind_eq_some] at h1
            obtain ⟨yr, -, hfin⟩ := h1
            exact finishRange_g4 hfin
          · simp at h1
        · simp at h1
      · rcases orElse_eq_some' h23 with h2 | h3
        · split at h2
          · split at h2
            · rw [Option.bind_eq_some] at h2
              obtain ⟨yr, -, hfin⟩ := h2
              exact finishRange_g4 hfin
            · simp at h2
          · simp at h2
        · rw [Option.bind_eq_some] at h3
          obtain ⟨yr, -, hfin⟩ := h3
          exact finishRange_g4 hfin
  · rw [Option.bind_eq_some] at h
    obtain ⟨yr, -, hfin⟩ := h
    exact finishRange_g4 hfin

theorem dateRangeSearch_g4 {s : Str} {idx : Nat} {m : DRMatch}
    (h : dateRangeSearch s = some (idx, m)) :
    m.g4 = none ∨ ∃ y, m.g4 = some y ∧ y.length = 4 ∧ y.all Char.isDigit = true := by
  induction s generalizing idx with
  | nil => simp [dateRangeSearch] at h
  | cons c cs ih =>
    rw [dateRangeSearch] at h
    split at h
    · rename_i m' hh
      simp only [Option.some.injEq, Prod.mk.injEq] at h
      obtain ⟨-, rfl⟩ := h
      exact dateRangeHere_g4 hh
    · rw [Option.map_eq_some'] at h
      obtain ⟨⟨i2, m2⟩, hrec, hmk⟩ := h
      simp only [Prod.mk.injEq] at hmk
      obtain ⟨-, rfl⟩ := hmk
      exact ih hrec

/-! ### The enrichment stages do not modify the dates -/

theorem beforePosLoop_end (n : Nat) (e : ExperienceEntry) (l : List (Nat × Str)) :
    (beforePosLoop n e l).2.end_date = e.end_date := by
  induction l generalizing e with
  | nil => rfl
  | cons p rest ih =>
    obtain ⟨j, raw⟩ := p
    rw [beforePosLoop.eq_2]
    simp only [apply_ite (Prod.snd : List ScoredCandidate × ExperienceEntry → ExperienceEntry),
      apply_ite ExperienceEntry.end_date, ih, ite_self]

theorem scanPipeLoc_end (e : ExperienceEntry) (l : List Str) :
    (scanPipeLoc e l).end_date = e.end_date := by
  induction l generalizing e with
  | nil => rfl
  | cons raw rest ih =>
    rw [scanPipeLoc.eq_2]
    simp only [ih, apply_ite ExperienceEntry.end_date, ite_self]

theorem positionStage_end (lines : List Str) (i : Nat) (e : ExperienceEntry) :
    (positionStage lines i e).end_date = e.end_date := by
  rw [positionStage]
  split
  · exact scanPipeLoc_end e _
  · dsimp only
    repeat' split
    all_goals simp [beforePosLoop_end]

theorem unknownPosLoop_end (lines : List Str) (e : ExperienceEntry) (l : List Nat) :
    (unknownPosLoop lines e l).end_date = e.end_date := by
  induction l generalizing e with
  | nil => rfl
  | cons j js ih =>
    rw [unknownPosLoop.eq_2]
    simp only [apply_ite ExperienceEntry.end_date, ih, ite_self]

theorem unknownPosStage_end (lines : List Str) (i : Nat) (e : ExperienceEntry) :
    (unknownPosStage lines i e).end_date = e.end_date := by
  rw [unknownPosStage]
  split
  · exact unknownPosLoop_end lines e _
  · rfl

theorem beforeEmpLoop_end (n : Nat) (e : ExperienceEntry) (l : List (Nat × Str)) :
    (beforeEmpLoop n e l).2.end_date = e.end_date := by
  induction l generalizing e with
  | nil => rfl
  | cons p rest ih =>
    obtain ⟨j, raw⟩ := p
    rw [beforeEmpLoop.eq_2]
    simp only [apply_ite (Prod.snd : List ScoredCandidate × ExperienceEntry → ExperienceEntry),
      apply_ite ExperienceEntry.end_date, ih, ite_self]

theorem afterEmpLoop_end (lines : List Str) (e : ExperienceEntry) (l : List Nat) :
    (afterEmpLoop lines e l).1.end_date = e.end_date := by
  induction l generalizing e with
  | nil => rfl
  | cons j js ih =>
    rw [afterEmpLoop.eq_2]
    cases afterEmpStep (trimStr (lines.getD j [])) with
    | cont => exact ih e
    | stop => rfl
    | hit emp loc => cases loc <;> [rfl; (dsimp only; split <;> rfl)]

theorem employerStage_end (lines : List Str) (i : Nat) (e : ExperienceEntry) :
    (employerStage lines i e).end_date = e.end_date := by
  rw [employerStage]
  repeat' split
  all_goals simp [beforeEmpLoop_end, afterEmpLoop_end]

theorem embeddedStage_end (e : ExperienceEntry) :
    (embeddedStage e).end_date = e.end_date := by
  rw [embeddedStage]
  dsimp only
  repeat' split
  all_goals simp

theorem fallbackEmpLoop_end (e : ExperienceEntry) (l : List Str) :
    (fallbackEmpLoop e l).end_date = e.end_date := by
  induction l generalizing e with
  | nil => rfl
  | cons raw rest ih =>
    rw [fallbackEmpLoop.eq_2]
    simp only [apply_ite ExperienceEntry.end_date, ih, ite_self]

theorem fallbackEmpStage_end (lines : List Str) (i : Nat) (e : ExperienceEntry) :
    (fallbackEmpStage lines i e).end_date = e.end_date := by
  rw [fallbackEmpStage]
  split
  · exact fallbackEmpLoop_end e _
  · rfl

theorem cleanupEmployer_end (e : ExperienceEntry) :
    (cleanupEmployer e).end_date = e.end_date := by
  rw [cleanupEmployer]
  dsimp only
  repeat' split
  all_goals simp

theorem locationStage_end (lines : List Str) (i : Nat) (e : ExperienceEntry) :
    (locationStage lines i e).end_date = e.end_date := by
  rw [locationStage]
  repeat' split
  all_goals simp

theorem descriptionStage_end (lines : List Str) (i : Nat) (e : ExperienceEntry) :
    (descriptionStage lines i e).end_date = e.end_date := by
  rw [descriptionStage]
  split <;> rfl

theorem buildEntryFull_end (lines : List Str) (i : Nat) (line : Str) (idx : Nat)
    (m : DRMatch) :
    (buildEntryFull lines i line idx m).end_date = (buildEntryInit line idx m).end_date := by
  rw [buildEntryFull, descriptionStage_end, locationStage_end, cleanupEmployer_end,
    fallbackEmpStage_end, embeddedStage_end, employerStage_end, unknownPosStage_end,
    positionStage_end]

theorem buildEntryInit_end (line : Str) (idx : Nat) (m : DRMatch) :
    (buildEntryInit line idx m).end_date =
      (if containsAnyCI [str "present", str "current"] ((line.drop idx).take m.len) then
        some (str "Present")
       else if truthy m.g3 ∧ truthy m.g4 then some (m.g3.getD [] ++ ' ' :: m.g4.getD [])
       else if truthy m.g4 then some (str "December " ++ m.g4.getD [])
       else none) := rfl

/-- C2: every entry the rule-based experience extractor returns has a truthy
`start_date`, and at a date anchor that passes the three guards the built
entry is appended if and only if its `start_date` is truthy (so a nominal
entry with only an employer and no detected start date is never emitted). -/
theorem experience_push_iff_start_date :
    (∀ text e, e ∈ extractExperience text → truthy e.start_date = true) ∧
    (∀ lines i line idx m, dateRangeSearch line = some (idx, m) →
      semesterGuard line = false → seminarGuard line = false → bulletGuard line = false →
      (processLine lines i line = some (buildEntryFull lines i line idx m) ↔
       truthy (buildEntryFull lines i line idx m).start_date = true)) := by
  constructor
  · intro text e h
    simp only [extractExperience, List.mem_filterMap] at h
    obtain ⟨⟨i, line⟩, -, hp⟩ := h
    simp only [processLine] at hp
    split at hp
    · simp at hp
    · split at hp
      · simp at hp
      · split at hp
        · simp at hp
        · split at hp
          · simp at hp
          · split at hp
            · rename_i ht
              injection hp with hpe
              rw [← hpe]
              exact ht
            · simp at hp
  · intro lines i line idx m hs h1 h2 h3
    simp only [processLine, hs, h1, h2, h3, Bool.false_eq_true, if_false]
    cases ht : truthy (buildEntryFull lines i line idx m).start_date <;> simp [ht]

theorem experience_push_iff_start_date_witness :
    truthy cxEntry.start_date = true :=
  experience_push_iff_start_date.1 cxText cxEntry (by decide)

/-- C4 (amended): the `end_date` of every extracted experience entry is
absent, the literal `Present`, or a month name followed by a four-digit
year; the extractor performs no chronological comparison with
`start_date` (see the counterexample). -/
theorem experience_end_date_forms :
    ∀ text e, e ∈ extractExperience text →
      e.end_date = none ∨ e.end_date = some (str "Present") ∨
      ∃ mo y, e.end_date = some (mo ++ ' ' :: y) ∧ y.length = 4 ∧
        y.all Char.isDigit = true := by
  intro text e h
  simp only [extractExperience, List.mem_filterMap] at h
  obtain ⟨⟨i, line⟩, -, hp⟩ := h
  simp only [processLine] at hp
  split at hp
  · simp at hp
  · rename_i idx m hsearch
    split at hp
    · simp at hp
    · split at hp
      · simp at hp
      · split at hp
        · simp at hp
        · split at hp
          · injection hp with hpe
            rw [← hpe, buildEntryFull_end, buildEntryInit_end]
            rcases dateRangeSearch_g4 hsearch with hg | ⟨y, hg, hlen, hdig⟩
            · split
              · right; left; rfl
              · split
                · rename_i hc
                  rw [hg] at hc
                  simp [truthy] at hc
                · split
                  · rename_i hc
                    rw [hg] at hc
                    simp [truthy] at hc
                  · left; rfl
            · split
              · right; left; rfl
              · split
                · right; right
                  refine ⟨m.g3.getD [], y, ?_, hlen, hdig⟩
                  rw [hg]
                  rfl
                · split
                  · right; right
                    refine ⟨str "December", y, ?_, hlen, hdig⟩
                    rw [hg]
                    simp [str]
                  · left; rfl
          · simp at hp

theorem experience_end_date_forms_witness :
    cxEntry.end_date = none ∨ cxEntry.end_date = some (str "Present") ∨
    ∃ mo y, cxEntry.end_date = some (mo ++ ' ' :: y) ∧ y.length = 4 ∧
      y.all Char.isDigit = true :=
  experience_end_date_forms cxText cxEntry (by decide)

/-- C4 counterexample: on `2009 - 2005 Quezon City General Hospital` the
extractor emits an entry whose `end_date` (`December 2005`) is present, is
not `Present`, and parses to a date strictly before the parsed
`start_date` (`January 2009`). -/
theorem experience_end_date_counterexample :
    cxEntry ∈ extractExperience cxText ∧
    cxEntry.start_date = some (str "January 2009") ∧
    cxEntry.end_date = some (str "December 2005") ∧
    cxEntry.end_date ≠ some (str "Present") ∧
    cxEntry.end_date ≠ none ∧
    parseMonthYear (str "January 2009") = some ⟨2009, 0⟩ ∧
    parseMonthYear (str "December 2005") = some ⟨2005, 11⟩ ∧
    (2005 : Int) * 12 + 11 < 2009 * 12 + 0 := by
  exact ⟨by decide, rfl, rfl, by decide, by decide, by decide, by decide, by decide⟩

/-- C5: a line on which the date pattern matches produces no experience
entry when the academic-term guard, the seminar/training guard, or the
bullet guard fires; in particular `1st Semester 2004-2005` yields no
entry. -/
theorem experience_anchor_guards :
    (∀ lines i line, dateRangeTest line = true →
      (semesterGuard line = true ∨ seminarGuard line = true ∨ bulletGuard line = true) →
      processLine lines i line = none) ∧
    extractExperience (str "1st Semester 2004-2005") = [] := by
  constructor
  · intro lines i line _ hg
    simp only [processLine]
    split
    · rfl
    · rcases hg with h | h | h
      · simp [h]
      · cases hsem : semesterGuard line <;> simp [hsem, h]
      · cases hsem : semesterGuard line <;> cases hsem2 : seminarGuard line <;>
          simp [hsem, hsem2, h]
  · decide

theorem experience_anchor_guards_witness :
    processLine [str "1st Semester 2004-2005"] 0 (str "1st Semester 2004-2005") = none :=
  experience_anchor_guards.1 [str "1st Semester 2004-2005"] 0
    (str "1st Semester 2004-2005") (by decide) (Or.inl (by decide))
